import Mathlib

/-!
Shallow embedding of the inventory-reservation and order-lifecycle core of a
rental/sale marketplace backend (cart service, sales-order service,
sales-invoice service), together with theorems settling the specification
claims about it.

Modelling conventions:
* database ids are `Nat`; timestamps are `Int` (milliseconds);
  monetary `Decimal` values are `ℚ` (exact arithmetic, as Prisma.Decimal);
* each service function is a pure function threading the database state
  explicitly; a thrown error is `Except.error`, and the returned state is the
  state at the moment of the throw (the source runs no store transaction, so
  writes performed before a throw stay committed);
* `new Date()` taken during one service call is modelled by a single `now`
  parameter passed to the call.
-/

namespace RentalSys

/-- Status of a sales order (generated client enum `OrderStatus`). -/
inductive OrderStatus where
  | DRAFT | SENT | APPROVED | REJECTED | CONFIRMED | CANCELLED
deriving DecidableEq, Repr

/-- Delivery status of an invoice.  The generated client enum used by the
services (`DeliveryStatus`) includes `COMPLETED`, which the order service
assigns in `calculateReturn`. -/
inductive DeliveryStatus where
  | PROCESSING | DISPATCHED | DELIVERED | COMPLETED | RETURNED
deriving DecidableEq, Repr

/-- Payment plan enum; `createOrdersFromCart` always uses `FULL_UPFRONT`. -/
inductive PaymentPlan where
  | FULL_UPFRONT | PARTIAL_MONTHLY
deriving DecidableEq, Repr

/-- Stock-movement type (`move_type` column, a free string in the schema;
the services write only the values below). -/
inductive MoveType where
  | RENTAL | SALE | IN | OUT
deriving DecidableEq, Repr

/-- A `stock` row: one per product, holding the physical quantity counter. -/
structure Stock where
  productId : Nat
  totalPhysicalQuantity : Int
deriving DecidableEq, Repr

/-- A `stock_transactions` row: a committed movement against a product over
the half-open window `[startDate, endDate)`; soft-deletable. -/
structure StockTransaction where
  productId : Nat
  orderId : Option Nat
  moveType : MoveType
  quantity : Int
  startDate : Int
  endDate : Int
  deletedAt : Option Int
deriving DecidableEq, Repr

/-- The product fields consumed by the cart / order / invoice services. -/
structure Product where
  id : Nat
  vendorId : Nat
  name : String
  dailyPrice : ℚ
  securityDeposit : Option ℚ
  taxPercentage : ℚ
deriving DecidableEq, Repr

/-- A cart row (per user + product; quantity, optional rental window,
`isService` distinguishes rental from purchase). -/
structure CartItem where
  userId : Nat
  productId : Nat
  quantity : Int
  startDate : Option Int
  endDate : Option Int
  isService : Bool
deriving DecidableEq, Repr

/-- A sales-order detail line. -/
structure OrderDetail where
  productId : Nat
  quantity : Int
  unitPrice : ℚ
  subtotal : ℚ
  totalDepositAmount : Option ℚ
  start_date : Option Int
  end_date : Option Int
deriving DecidableEq, Repr

/-- A sales order together with its owned detail lines. -/
structure SalesOrder where
  id : Nat
  customerId : Nat
  vendorId : Nat
  isService : Bool
  status : OrderStatus
  paymentPlan : PaymentPlan
  totalOrderValue : ℚ
  details : List OrderDetail
deriving DecidableEq, Repr

/-- A `sales_invoice` row. -/
structure Invoice where
  orderId : Nat
  invoiceNumber : String
  taxAmount : ℚ
  grandTotal : ℚ
  deliveryStatus : DeliveryStatus
  isPaid : Bool
  deletedAt : Option Int
deriving DecidableEq, Repr

/-- A `payment_ledger` row. -/
structure PaymentLedger where
  orderId : Nat
  amountPaid : ℚ
  deletedAt : Option Int
deriving DecidableEq, Repr

/-- The relational store as seen by the services.  `nextOrderId` models the
id generator for created orders. -/
structure DB where
  stocks : List Stock
  transactions : List StockTransaction
  carts : List CartItem
  products : List Product
  orders : List SalesOrder
  invoices : List Invoice
  paymentLedgers : List PaymentLedger
  nextOrderId : Nat
deriving DecidableEq, Repr

/-- Error kinds thrown by the services (the source throws `Error` with a
message; constructors below discriminate the distinct messages). -/
inductive Err where
  | emptyCart
  | datesRequired (productName : String)
  | insufficientStock (productName : String)
  | missingDates (productId : Nat)
  | insufficientApprove (productId : Nat)
  | notFound
  | unauthorized
deriving DecidableEq, Repr

/-- Milliseconds in one day, the divisor of every day computation. -/
def msPerDay : Nat := 1000 * 60 * 60 * 24

/-- Exact ceiling division on naturals: `ceilDivNat a b = ⌈a / b⌉`
(for `b > 0`), the exact value of the source's `Math.ceil(a / b)`. -/
def ceilDivNat (a b : Nat) : Nat := (a + b - 1) / b

/-- `db.stock.findUnique({ where: { productId } })`. -/
def stockFind? (db : DB) (pid : Nat) : Option Stock :=
  db.stocks.find? (fun s => s.productId == pid)

/-- `db.product.findUnique({ where: { id } })`. -/
def productFind? (db : DB) (pid : Nat) : Option Product :=
  db.products.find? (fun p => p.id == pid)

/-- `db.salesOrder.findUnique({ where: { id } })`. -/
def orderFind? (db : DB) (oid : Nat) : Option SalesOrder :=
  db.orders.find? (fun o => o.id == oid)

/-- `stock?.totalPhysicalQuantity || 0`. -/
def totalStockOf (db : DB) (pid : Nat) : Int :=
  match stockFind? db pid with
  | some s => s.totalPhysicalQuantity
  | none => 0

/-- The where-clause of the booked-transactions query in
`cartService.checkStockAvailability`: same product, not soft-deleted, and
window overlap `startDate < requestedEnd && endDate > requestedStart`. -/
def bookedFilter (pid : Nat) (reqStart reqEnd : Int) (t : StockTransaction) : Bool :=
  t.productId == pid && t.deletedAt == none &&
    decide (t.startDate < reqEnd) && decide (t.endDate > reqStart)

/-- `cartService.checkStockAvailability(productId, startDate, endDate,
requestedQuantity)`: total stock (0 if absent) minus the summed quantity of
overlapping active transactions, compared with the requested quantity. -/
def checkStockAvailability (db : DB) (pid : Nat) (startDate endDate : Int)
    (requestedQuantity : Int) : Bool :=
  let totalStock := totalStockOf db pid
  let booked := db.transactions.filter (bookedFilter pid startDate endDate)
  let bookedQuantity := (booked.map (fun t => t.quantity)).sum
  let availableStock := totalStock - bookedQuantity
  decide (availableStock ≥ requestedQuantity)

/-- Spec-side overlap predicate of §4.1: half-open interval test
`transaction.start < requestedEnd AND transaction.end > requestedStart`. -/
def overlapsWindow (t : StockTransaction) (reqStart reqEnd : Int) : Prop :=
  t.startDate < reqEnd ∧ t.endDate > reqStart

instance (t : StockTransaction) (s e : Int) : Decidable (overlapsWindow t s e) := by
  unfold overlapsWindow; infer_instance

/-- Spec-side booked quantity: the sum, over all stock transactions of the
product that are not soft-deleted and overlap the requested window, of their
quantities (stated as a sum of indicator terms, independent of the query
shape used by the code). -/
def bookedQuantitySpec (db : DB) (pid : Nat) (reqStart reqEnd : Int) : Int :=
  (db.transactions.map (fun t =>
    if t.productId = pid ∧ t.deletedAt = none ∧ overlapsWindow t reqStart reqEnd
    then t.quantity else 0)).sum

/-- Available quantity of a product over a window, as computed by the
availability calculator. -/
def availableStock (db : DB) (pid : Nat) (reqStart reqEnd : Int) : Int :=
  totalStockOf db pid - bookedQuantitySpec db pid reqStart reqEnd

lemma bookedFilter_eq_true_iff (pid : Nat) (s e : Int) (t : StockTransaction) :
    bookedFilter pid s e t = true ↔
      t.productId = pid ∧ t.deletedAt = none ∧ overlapsWindow t s e := by
  simp [bookedFilter, overlapsWindow, and_assoc]

lemma bookedFilter_sum_eq (ts : List StockTransaction) (pid : Nat) (s e : Int) :
    ((ts.filter (bookedFilter pid s e)).map (fun t => t.quantity)).sum =
      (ts.map (fun t =>
        if t.productId = pid ∧ t.deletedAt = none ∧ overlapsWindow t s e
        then t.quantity else 0)).sum := by
  induction ts with
  | nil => rfl
  | cons t rest ih =>
    by_cases h : t.productId = pid ∧ t.deletedAt = none ∧ overlapsWindow t s e
    · have hb : bookedFilter pid s e t = true :=
        (bookedFilter_eq_true_iff pid s e t).mpr h
      simp [List.filter_cons, hb, ih, if_pos h]
    · have hb : ¬ bookedFilter pid s e t = true :=
        fun hc => h ((bookedFilter_eq_true_iff pid s e t).mp hc)
      rw [Bool.not_eq_true] at hb
      simp [List.filter_cons, hb, ih, if_neg h]

/-- **C1.** The availability check returns `true` iff the total physical
quantity of the product (0 when it has no stock row) minus the summed
quantities of all non-deleted stock transactions overlapping the requested
window under the half-open test `start < requestedEnd ∧ end > requestedStart`
is at least the requested quantity. -/
theorem checkStockAvailability_iff_spec (db : DB) (pid : Nat)
    (reqStart reqEnd reqQty : Int) :
    checkStockAvailability db pid reqStart reqEnd reqQty = true ↔
      totalStockOf db pid - bookedQuantitySpec db pid reqStart reqEnd ≥ reqQty := by
  unfold checkStockAvailability bookedQuantitySpec
  dsimp only
  rw [bookedFilter_sum_eq]
  exact decide_eq_true_iff

/-! ## Cart checkout: `salesOrderService.createOrdersFromCart` -/

/-- A cart row joined with its product and the product's stock row, as
returned by `db.cart.findMany({ include: { product: { include: { stock }}}})`. -/
structure JoinedCartItem where
  item : CartItem
  product : Product
  stock : Option Stock
deriving DecidableEq, Repr

/-- Fetch the customer's cart rows with their products; a dangling product
reference makes the relational include fail. -/
def fetchCartItems (db : DB) (customerId : Nat) : Except Err (List JoinedCartItem) :=
  (db.carts.filter (fun c => c.userId == customerId)).mapM (fun c =>
    match productFind? db c.productId with
    | some p => .ok ⟨c, p, stockFind? db c.productId⟩
    | none => .error .notFound)

/-- The per-item body of the first loop of `createOrdersFromCart`: rental
items need both dates and a windowed availability check; purchase items are
checked against the fetched `product.stock` snapshot. -/
def validateCartItem (db : DB) (j : JoinedCartItem) : Except Err Unit :=
  if j.item.isService then
    match j.item.startDate, j.item.endDate with
    | some s, some e =>
      if checkStockAvailability db j.item.productId s e j.item.quantity
      then .ok ()
      else .error (.insufficientStock j.product.name)
    | _, _ => .error (.datesRequired j.product.name)
  else
    let totalStock := (j.stock.map (fun s => s.totalPhysicalQuantity)).getD 0
    if totalStock < j.item.quantity
    then .error (.insufficientStock j.product.name)
    else .ok ()

/-- The first loop of `createOrdersFromCart`: check every cart line, stopping
at the first failure. -/
def validateCartItems (db : DB) : List JoinedCartItem → Except Err Unit
  | [] => .ok ()
  | j :: rest =>
    match validateCartItem db j with
    | .error e => .error e
    | .ok () => validateCartItems db rest

/-- The grouping key `vendorId-isService` of the second step. -/
def groupKey (j : JoinedCartItem) : Nat × Bool :=
  (j.product.vendorId, j.item.isService)

/-- One step of the `Map`-based grouping: append the item to its key's group
if present, else start a new group at the end (insertion order). -/
def insertGroup (groups : List ((Nat × Bool) × List JoinedCartItem))
    (j : JoinedCartItem) : List ((Nat × Bool) × List JoinedCartItem) :=
  if groups.any (fun g => g.1 == groupKey j) then
    groups.map (fun g => if g.1 == groupKey j then (g.1, g.2 ++ [j]) else g)
  else
    groups ++ [(groupKey j, [j])]

/-- Step 2 of `createOrdersFromCart`: partition the cart lines by
`(vendorId, isService)`, preserving first-occurrence order of keys and the
order of items within each group (JS `Map` iteration order). -/
def groupCartItems (items : List JoinedCartItem) :
    List ((Nat × Bool) × List JoinedCartItem) :=
  items.foldl insertGroup []

/-- `rentalDays = Math.ceil(|end - start| / msPerDay)`, bumped to 1 when
below 1. -/
def rentalDaysOf (startDate endDate : Int) : Nat :=
  max (ceilDivNat (endDate - startDate).natAbs msPerDay) 1

/-- The per-item detail construction of step 3: pricing, deposit total and
window copy.  `unitPrice` is the product's daily price. -/
def buildDetail (isService : Bool) (j : JoinedCartItem) : Except Err OrderDetail :=
  let unitPrice := j.product.dailyPrice
  if isService then
    match j.item.startDate, j.item.endDate with
    | some s, some e =>
      let rentalDays := rentalDaysOf s e
      .ok { productId := j.product.id
            quantity := j.item.quantity
            unitPrice := unitPrice
            subtotal := unitPrice * j.item.quantity * rentalDays
            totalDepositAmount := some ((j.product.securityDeposit.getD 0) * j.item.quantity)
            start_date := some s
            end_date := some e }
    | _, _ => .error (.datesRequired j.product.name)
  else
    .ok { productId := j.product.id
          quantity := j.item.quantity
          unitPrice := unitPrice
          subtotal := unitPrice * j.item.quantity
          totalDepositAmount := some ((j.product.securityDeposit.getD 0) * j.item.quantity)
          start_date := none
          end_date := none }

/-- The detail-building loop of one group: accumulates the detail rows and
`totalOrderValue` (the running sum of subtotals) exactly as the source's
loop does. -/
def buildGroupData (isService : Bool) :
    List JoinedCartItem → Except Err (List OrderDetail × ℚ)
  | [] => .ok ([], 0)
  | j :: rest =>
    match buildDetail isService j with
    | .error e => .error e
    | .ok d =>
      match buildGroupData isService rest with
      | .error e => .error e
      | .ok (ds, total) => .ok (d :: ds, d.subtotal + total)

/-- `db.stock.update({ where: { productId }, data: { totalPhysicalQuantity:
{ decrement }}})`; a missing row makes the update throw. -/
def decrementStock (db : DB) (pid : Nat) (q : Int) : Except Err DB :=
  if db.stocks.any (fun s => s.productId == pid) then
    .ok { db with stocks := db.stocks.map (fun s =>
            if s.productId == pid
            then { s with totalPhysicalQuantity := s.totalPhysicalQuantity - q }
            else s) }
  else .error .notFound

/-- `db.stockTransaction.create`. -/
def addTransaction (db : DB) (t : StockTransaction) : DB :=
  { db with transactions := db.transactions ++ [t] }

/-- The `SALE` movement logged for one sold line: quantity against the
product, referencing the order, with `startDate = endDate = now` (the source
calls `new Date()` for both fields). -/
def saleTxnOf (now : Int) (orderId pid : Nat) (q : Int) : StockTransaction :=
  { productId := pid
    orderId := some orderId
    moveType := .SALE
    quantity := q
    startDate := now
    endDate := now
    deletedAt := none }

/-- Step 5, per purchase line: decrement stock, then log a `SALE` movement
whose window is the instant of approval (`startDate = endDate = now`). -/
def applySaleEffect (now : Int) (orderId : Nat) (db : DB) (j : JoinedCartItem) :
    Except Err DB :=
  match decrementStock db j.item.productId j.item.quantity with
  | .error e => .error e
  | .ok db1 =>
    .ok (addTransaction db1 (saleTxnOf now orderId j.item.productId j.item.quantity))

/-- Fold `applySaleEffect` over a purchase group's items (sequential, as the
source's per-line loop); on a throw the state already written stays. -/
def applySaleEffects (now : Int) (orderId : Nat) :
    DB → List JoinedCartItem → DB × Except Err Unit
  | db, [] => (db, .ok ())
  | db, j :: rest =>
    match applySaleEffect now orderId db j with
    | .error e => (db, .error e)
    | .ok db1 => applySaleEffects now orderId db1 rest

/-- The sales-order row created for one group (step 4): initial status
`APPROVED` for purchase groups, `DRAFT` for rental groups. -/
def createdOrderOf (customerId : Nat) (db : DB)
    (g : (Nat × Bool) × List JoinedCartItem)
    (details : List OrderDetail) (totalOrderValue : ℚ) : SalesOrder :=
  { id := db.nextOrderId
    customerId := customerId
    vendorId := g.1.1
    isService := g.1.2
    status := if !g.1.2 then .APPROVED else .DRAFT
    paymentPlan := .FULL_UPFRONT
    totalOrderValue := totalOrderValue
    details := details }

/-- Step 5 of one group, after the order row exists: purchase groups apply
the per-line stock deduction and `SALE` logging, rental groups do nothing. -/
def finishGroup (now : Int) (db1 : DB) (order : SalesOrder)
    (items : List JoinedCartItem) : DB × Except Err SalesOrder :=
  if !order.isService then
    match applySaleEffects now order.id db1 items with
    | (db2, .error e) => (db2, .error e)
    | (db2, .ok ()) => (db2, .ok order)
  else (db1, .ok order)

/-- Step 3 + 4 + 5 for one group: build the details and total, create the
order row, and for purchase groups apply the per-line stock effects. -/
def processGroup (now : Int) (customerId : Nat) (db : DB)
    (g : (Nat × Bool) × List JoinedCartItem) : DB × Except Err SalesOrder :=
  match buildGroupData g.1.2 g.2 with
  | .error e => (db, .error e)
  | .ok (details, totalOrderValue) =>
    let order := createdOrderOf customerId db g details totalOrderValue
    let db1 : DB :=
      { db with orders := db.orders ++ [order], nextOrderId := db.nextOrderId + 1 }
    finishGroup now db1 order g.2

/-- The group loop of `createOrdersFromCart`, collecting the created orders. -/
def processGroups (now : Int) (customerId : Nat) :
    DB → List ((Nat × Bool) × List JoinedCartItem) →
    DB × Except Err (List SalesOrder)
  | db, [] => (db, .ok [])
  | db, g :: rest =>
    match processGroup now customerId db g with
    | (db1, .error e) => (db1, .error e)
    | (db1, .ok o) =>
      match processGroups now customerId db1 rest with
      | (db2, .error e) => (db2, .error e)
      | (db2, .ok os) => (db2, .ok (o :: os))

/-- `db.cart.deleteMany({ where: { userId: customerId }})`. -/
def clearCart (db : DB) (customerId : Nat) : DB :=
  { db with carts := db.carts.filter (fun c => !(c.userId == customerId)) }

/-- `salesOrderService.createOrdersFromCart({ customerId })`: fetch the cart,
reject an empty cart, pre-check every line's availability, group by
`(vendorId, isService)`, create one order per group (with purchase stock
effects), and clear the customer's cart only after all orders were created. -/
def createOrdersFromCart (db : DB) (now : Int) (customerId : Nat) :
    DB × Except Err (List SalesOrder) :=
  match fetchCartItems db customerId with
  | .error e => (db, .error e)
  | .ok cartItems =>
    if cartItems.isEmpty then (db, .error .emptyCart)
    else
      match validateCartItems db cartItems with
      | .error e => (db, .error e)
      | .ok () =>
        match processGroups now customerId db (groupCartItems cartItems) with
        | (db1, .error e) => (db1, .error e)
        | (db1, .ok orders) => (clearCart db1 customerId, .ok orders)

/-! ## Order lifecycle: `salesOrderService.updateOrderStatus` -/

/-- The rental availability re-check of one detail line over its
`[start, end)` window (first inner loop of the `APPROVED` branch). -/
def checkRentalDetail (db : DB) (d : OrderDetail) : Except Err Unit :=
  match d.start_date, d.end_date with
  | some s, some e =>
    if checkStockAvailability db d.productId s e d.quantity
    then .ok ()
    else .error (.insufficientApprove d.productId)
  | _, _ => .error (.missingDates d.productId)

/-- Run the rental re-check over all detail lines, stopping at the first
failure (no transaction is created before all checks pass). -/
def checkRentalDetails (db : DB) : List OrderDetail → Except Err Unit
  | [] => .ok ()
  | d :: rest =>
    match checkRentalDetail db d with
    | .error e => .error e
    | .ok () => checkRentalDetails db rest

/-- The `RENTAL` movement created for one approved rental detail line.
(The source reads the dates with a non-null assertion; the preceding check
loop guarantees they are present.) -/
def mkRentalTxn (orderId : Nat) (d : OrderDetail) : StockTransaction :=
  { productId := d.productId
    orderId := some orderId
    moveType := .RENTAL
    quantity := d.quantity
    startDate := d.start_date.getD 0
    endDate := d.end_date.getD 0
    deletedAt := none }

/-- Second inner loop of the rental `APPROVED` branch: append one `RENTAL`
movement per detail line. -/
def applyRentalTxns (orderId : Nat) (db : DB) (details : List OrderDetail) : DB :=
  details.foldl (fun d detail => addTransaction d (mkRentalTxn orderId detail)) db

/-- One purchase detail line of the `APPROVED` branch: re-read the stock row,
require `totalPhysicalQuantity ≥ quantity`, decrement, and log a `SALE`
movement at the approval instant. -/
def approvePurchaseDetail (now : Int) (orderId : Nat) (db : DB)
    (d : OrderDetail) : Except Err DB :=
  match stockFind? db d.productId with
  | none => .error (.insufficientApprove d.productId)
  | some stock =>
    if stock.totalPhysicalQuantity < d.quantity then
      .error (.insufficientApprove d.productId)
    else
      match decrementStock db d.productId d.quantity with
      | .error e => .error e
      | .ok db1 =>
        .ok (addTransaction db1 (saleTxnOf now orderId d.productId d.quantity))

/-- The sequential purchase loop of the `APPROVED` branch; on a throw the
lines already processed stay written. -/
def approvePurchaseDetails (now : Int) (orderId : Nat) :
    DB → List OrderDetail → DB × Except Err Unit
  | db, [] => (db, .ok ())
  | db, d :: rest =>
    match approvePurchaseDetail now orderId db d with
    | .error e => (db, .error e)
    | .ok db1 => approvePurchaseDetails now orderId db1 rest

/-- `db.salesOrder.update({ where: { id }, data: { status }})`. -/
def setOrderStatus (db : DB) (oid : Nat) (st : OrderStatus) : DB :=
  { db with orders := db.orders.map (fun o =>
      if o.id == oid then { o with status := st } else o) }

/-- `salesOrderService.updateOrderStatus({ vendorId, orderId, status })`:
ownership check, the guarded stock side effects when moving to `APPROVED`
from a non-`APPROVED` status, then the status write. -/
def updateOrderStatus (db : DB) (now : Int) (vendorId orderId : Nat)
    (status : OrderStatus) : DB × Except Err SalesOrder :=
  match orderFind? db orderId with
  | none => (db, .error .notFound)
  | some order =>
    if order.vendorId ≠ vendorId then (db, .error .unauthorized)
    else if status = .APPROVED ∧ order.status ≠ .APPROVED then
      if order.isService then
        match checkRentalDetails db order.details with
        | .error e => (db, .error e)
        | .ok () =>
          let db1 := applyRentalTxns order.id db order.details
          (setOrderStatus db1 orderId status, .ok { order with status := status })
      else
        match approvePurchaseDetails now order.id db order.details with
        | (db1, .error e) => (db1, .error e)
        | (db1, .ok ()) =>
          (setOrderStatus db1 orderId status, .ok { order with status := status })
    else
      (setOrderStatus db orderId status, .ok { order with status := status })

/-! ## Settlement: `salesOrderService.calculateReturn` -/

/-- The summary payload returned by `calculateReturn`. -/
structure ReturnSummary where
  orderId : Nat
  grandTotal : ℚ
  totalPaid : ℚ
  totalDeposit : ℚ
  totalLateFee : ℚ
  finalPayment : ℚ
deriving DecidableEq, Repr

/-- The invoices related to an order (`include: { invoices: true }`, no
soft-delete filter in this query). -/
def invoicesOf (db : DB) (oid : Nat) : List Invoice :=
  db.invoices.filter (fun inv => inv.orderId == oid)

/-- The payment-ledger rows related to an order (`include:
{ paymentLedgers: true }`, no soft-delete filter in this query). -/
def ledgersOf (db : DB) (oid : Nat) : List PaymentLedger :=
  db.paymentLedgers.filter (fun l => l.orderId == oid)

/-- The late fee of one detail line: when the end date lies strictly in the
past, `unitPrice * quantity * Math.ceil(|now - endDate| / msPerDay)`; lines
without an end date contribute zero. -/
def lateFeeOf (now : Int) (d : OrderDetail) : ℚ :=
  match d.end_date with
  | none => 0
  | some e =>
    if now > e then
      d.unitPrice * d.quantity * (ceilDivNat (now - e).natAbs msPerDay : ℚ)
    else 0

/-- `db.salesInvoice.updateMany({ where: { orderId }, data: { deliveryStatus:
COMPLETED }})`. -/
def markInvoicesCompleted (db : DB) (oid : Nat) : DB :=
  { db with invoices := db.invoices.map (fun inv =>
      if inv.orderId == oid
      then { inv with deliveryStatus := .COMPLETED }
      else inv) }

/-- The sums and final payment computed by `calculateReturn` (steps 2 to 5),
all read from the state before the invoice-status write. -/
def summarizeReturn (db : DB) (now : Int) (oid : Nat) (order : SalesOrder) :
    ReturnSummary :=
  let grandTotal := ((invoicesOf db oid).map (fun inv => inv.grandTotal)).sum
  let totalPaid := ((ledgersOf db oid).map (fun l => l.amountPaid)).sum
  let totalDeposit :=
    (order.details.map (fun d => d.totalDepositAmount.getD 0)).sum
  let totalLateFee := (order.details.map (lateFeeOf now)).sum
  { orderId := oid
    grandTotal := grandTotal
    totalPaid := totalPaid
    totalDeposit := totalDeposit
    totalLateFee := totalLateFee
    finalPayment := totalDeposit + totalPaid - grandTotal - totalLateFee }

/-- `salesOrderService.calculateReturn(orderId)`: fetch the order tree,
compute the sums and the final payment, then (last step) mark every invoice
of the order `COMPLETED` and return the summary. -/
def calculateReturn (db : DB) (now : Int) (oid : Nat) :
    DB × Except Err ReturnSummary :=
  match orderFind? db oid with
  | none => (db, .error .notFound)
  | some order =>
    let summary := summarizeReturn db now oid order
    (markInvoicesCompleted db oid, .ok summary)

/-! ## Invoicing: `salesInvoiceService.createInvoice`
(the version at `src/services/sales-invoice.service.ts`) -/

/-- The tax loop of `createInvoice` as written: the product tax rate lookup
is commented out (marked NEED TO FIX) and a hardcoded rate of 18 is used, so
each line contributes `subtotal * 18 / 100`. -/
def invoiceTaxAmount (details : List OrderDetail) : ℚ :=
  (details.map (fun d => d.subtotal * 18 / 100)).sum

/-- `salesInvoiceService.createInvoice({ vendorId, orderId })`: ownership
check, tax and grand total computation, then the invoice insert with status
`PROCESSING` and `isPaid = false`.  The generated invoice number (date +
random suffix) is passed in as `invoiceNumber`. -/
def createInvoice (db : DB) (vendorId orderId : Nat) (invoiceNumber : String) :
    DB × Except Err Invoice :=
  match orderFind? db orderId with
  | none => (db, .error .notFound)
  | some order =>
    if order.vendorId ≠ vendorId then (db, .error .unauthorized)
    else
      let totalTaxAmount := invoiceTaxAmount order.details
      let grandTotal := order.totalOrderValue + totalTaxAmount
      let inv : Invoice :=
        { orderId := order.id
          invoiceNumber := invoiceNumber
          taxAmount := totalTaxAmount
          grandTotal := grandTotal
          deliveryStatus := .PROCESSING
          isPaid := false
          deletedAt := none }
      ({ db with invoices := db.invoices ++ [inv] }, .ok inv)

/-- The tax amount the specification prescribes for an order's invoice:
`Σ (detail.subtotal * product.taxPercentage / 100)`, the product looked up
per detail line. -/
def invoiceTaxAmountSpec (db : DB) (details : List OrderDetail) : ℚ :=
  (details.map (fun d =>
    d.subtotal * ((productFind? db d.productId).map Product.taxPercentage).getD 0
      / 100)).sum

/-! ## Day arithmetic: the code's integer ceiling division agrees with the
exact rational ceiling the spec describes -/

lemma ceilDivNat_eq_ceil (a b : Nat) (hb : 0 < b) :
    (ceilDivNat a b : ℤ) = ⌈(a : ℚ) / (b : ℚ)⌉ := by
  have hbq : (0 : ℚ) < (b : ℚ) := by exact_mod_cast hb
  have f2 : ceilDivNat a b * b ≤ a + b - 1 := Nat.div_mul_le_self _ _
  have f0 : a + b - 1 < (ceilDivNat a b + 1) * b :=
    (Nat.div_lt_iff_lt_mul hb).mp (Nat.lt_succ_self _)
  have hex : (ceilDivNat a b + 1) * b = ceilDivNat a b * b + b := by ring
  rw [hex] at f0
  have f1 : a ≤ ceilDivNat a b * b := by omega
  have f2' : ceilDivNat a b * b < a + b := by omega
  symm
  rw [Int.ceil_eq_iff]
  refine ⟨?_, ?_⟩
  · rw [lt_div_iff₀ hbq]
    have fInt : ((ceilDivNat a b : ℤ) - 1) * (b : ℤ) < (a : ℤ) := by
      have hcast : ((ceilDivNat a b : ℤ)) * (b : ℤ) < (a : ℤ) + (b : ℤ) := by
        exact_mod_cast f2'
      have hring : ((ceilDivNat a b : ℤ) - 1) * (b : ℤ) =
          (ceilDivNat a b : ℤ) * (b : ℤ) - (b : ℤ) := by ring
      rw [hring]
      linarith
    exact_mod_cast fInt
  · rw [div_le_iff₀ hbq]
    exact_mod_cast f1

/-- The late fee the specification prescribes for one detail line:
for an end date strictly in the past, `unitPrice * quantity *
⌈(now - endDate) / 1 day⌉` with an exact rational ceiling; lines without an
end date contribute zero. -/
def lateFeeSpec (now : Int) (d : OrderDetail) : ℚ :=
  match d.end_date with
  | none => 0
  | some e =>
    if e < now then
      d.unitPrice * d.quantity *
        ((⌈(((now - e : ℤ) : ℚ)) / (msPerDay : ℚ)⌉ : ℤ) : ℚ)
    else 0

lemma lateFeeOf_eq_spec (now : Int) (d : OrderDetail) :
    lateFeeOf now d = lateFeeSpec now d := by
  unfold lateFeeOf lateFeeSpec
  cases hed : d.end_date with
  | none => rfl
  | some e =>
    dsimp only
    by_cases h : e < now
    · rw [if_pos h, if_pos h]
      have hpos : 0 ≤ now - e := by omega
      have hna : (((now - e).natAbs : ℤ)) = now - e := Int.natAbs_of_nonneg hpos
      have hbridge := ceilDivNat_eq_ceil (now - e).natAbs msPerDay
        (by norm_num [msPerDay])
      have hXq : (((now - e).natAbs : ℚ)) = (((now - e : ℤ)) : ℚ) := by
        rw [Int.cast_natAbs]
        exact_mod_cast abs_of_nonneg hpos
      rw [hXq] at hbridge
      have : ((ceilDivNat (now - e).natAbs msPerDay : ℕ) : ℚ) =
          ((⌈(((now - e : ℤ) : ℚ)) / (msPerDay : ℚ)⌉ : ℤ) : ℚ) := by
        exact_mod_cast congrArg (fun z : ℤ => (z : ℚ)) hbridge
      rw [this]
    · rw [if_neg h, if_neg h]

/-! ## Claim theorems and witnesses -/

/-- Fixture for the idempotence claim: a rental order already `APPROVED`. -/
def c4order : SalesOrder :=
  { id := 100
    customerId := 7
    vendorId := 10
    isService := true
    status := .APPROVED
    paymentPlan := .FULL_UPFRONT
    totalOrderValue := 200
    details := [{ productId := 1
                  quantity := 2
                  unitPrice := 100
                  subtotal := 200
                  totalDepositAmount := some 0
                  start_date := some 0
                  end_date := some 5 }] }

def c4db : DB :=
  { stocks := [⟨1, 10⟩]
    transactions := [⟨1, some 100, .RENTAL, 2, 0, 5, none⟩]
    carts := []
    products := []
    orders := [c4order]
    invoices := []
    paymentLedgers := []
    nextOrderId := 101 }

/-- **C4.** `updateOrderStatus(.., APPROVED)` on an order whose status is
already `APPROVED` skips the guarded stock block: no stock movement is
created and no stock quantity changes, so a second approval in a row adds
nothing to the movements of the first. -/
theorem approve_approved_creates_no_movement (db : DB) (now : Int)
    (vendorId oid : Nat) (order : SalesOrder)
    (hfind : orderFind? db oid = some order)
    (hown : order.vendorId = vendorId)
    (happ : order.status = OrderStatus.APPROVED) :
    (updateOrderStatus db now vendorId oid .APPROVED).1.transactions =
        db.transactions ∧
      (updateOrderStatus db now vendorId oid .APPROVED).1.stocks = db.stocks ∧
      (updateOrderStatus db now vendorId oid .APPROVED).2 =
        .ok { order with status := .APPROVED } := by
  unfold updateOrderStatus
  rw [hfind]
  simp [hown, happ, setOrderStatus]

/-- Witness for C4 at a concrete already-approved order. -/
theorem approve_approved_creates_no_movement_witness :
    (updateOrderStatus c4db 0 10 100 .APPROVED).1.transactions =
        c4db.transactions ∧
      (updateOrderStatus c4db 0 10 100 .APPROVED).1.stocks = c4db.stocks ∧
      (updateOrderStatus c4db 0 10 100 .APPROVED).2 =
        .ok { c4order with status := .APPROVED } :=
  approve_approved_creates_no_movement c4db 0 10 100 c4order rfl rfl rfl

/-- Fixture for the settlement round-trip: one invoice of 1475, payments of
1475, a deposit of 500, no end date (so no late fee). -/
def c5order : SalesOrder :=
  { id := 100
    customerId := 7
    vendorId := 10
    isService := false
    status := .CONFIRMED
    paymentPlan := .FULL_UPFRONT
    totalOrderValue := 1250
    details := [{ productId := 1
                  quantity := 5
                  unitPrice := 250
                  subtotal := 1250
                  totalDepositAmount := some 500
                  start_date := none
                  end_date := none }] }

def c5db : DB :=
  { stocks := [⟨1, 10⟩]
    transactions := []
    carts := []
    products := []
    orders := [c5order]
    invoices := [⟨100, "INV-1", 225, 1475, .DELIVERED, true, none⟩]
    paymentLedgers := [⟨100, 1475, none⟩]
    nextOrderId := 101 }

/-- **C5.** For an existing order, `calculateReturn` succeeds and returns
`finalPayment = totalDeposit + totalPaid − grandTotal − totalLateFee`, with
`grandTotal` the sum of the order's invoice grand totals, `totalPaid` the sum
of its payment-ledger amounts, `totalDeposit` the sum of its details' deposit
totals, and `totalLateFee` summing `unitPrice * quantity *
⌈(now − endDate) / 1 day⌉` over details past their end date (0 for details
without one). -/
theorem calculateReturn_finalPayment (db : DB) (now : Int) (oid : Nat)
    (order : SalesOrder) (hfind : orderFind? db oid = some order) :
    ∃ s : ReturnSummary,
      (calculateReturn db now oid).2 = .ok s ∧
      s.grandTotal = ((invoicesOf db oid).map (fun i => i.grandTotal)).sum ∧
      s.totalPaid = ((ledgersOf db oid).map (fun l => l.amountPaid)).sum ∧
      s.totalDeposit =
        (order.details.map (fun d => d.totalDepositAmount.getD 0)).sum ∧
      s.totalLateFee = (order.details.map (lateFeeSpec now)).sum ∧
      s.finalPayment =
        s.totalDeposit + s.totalPaid - s.grandTotal - s.totalLateFee := by
  refine ⟨summarizeReturn db now oid order, ?_, ?_, ?_, ?_, ?_, ?_⟩
  · unfold calculateReturn
    rw [hfind]
  · rfl
  · rfl
  · rfl
  · show (order.details.map (lateFeeOf now)).sum = _
    rw [funext (lateFeeOf_eq_spec now)]
  · rfl

/-- Witness for C5: the spec's round trip yields a final payment of 500. -/
theorem calculateReturn_finalPayment_witness :
    ∃ s : ReturnSummary,
      (calculateReturn c5db 0 100).2 = .ok s ∧ s.finalPayment = 500 := by
  obtain ⟨s, h1, h2, h3, h4, h5, h6⟩ :=
    calculateReturn_finalPayment c5db 0 100 c5order rfl
  refine ⟨s, h1, ?_⟩
  rw [h6, h2, h3, h4, h5]
  norm_num [invoicesOf, ledgersOf, c5db, c5order, lateFeeSpec]

/-- Fixture for the invoice-completion claim: one order with one own and one
foreign invoice. -/
def c7order : SalesOrder :=
  { id := 100
    customerId := 7
    vendorId := 10
    isService := true
    status := .CONFIRMED
    paymentPlan := .FULL_UPFRONT
    totalOrderValue := 100
    details := [] }

def c7db : DB :=
  { stocks := []
    transactions := []
    carts := []
    products := []
    orders := [c7order]
    invoices := [⟨100, "INV-A", 9, 109, .DELIVERED, true, none⟩,
                 ⟨200, "INV-B", 0, 50, .PROCESSING, false, none⟩]
    paymentLedgers := []
    nextOrderId := 300 }

/-- **C7.** `calculateReturn` sets the delivery status of every invoice of
the order to `COMPLETED` as its last step: the summary is computed entirely
from the pre-update state, other invoices and all other tables stay
untouched, and when the prior computation fails (the order is absent) no
invoice changes at all. -/
theorem calculateReturn_marks_invoices_completed (db : DB) (now : Int)
    (oid : Nat) :
    (orderFind? db oid = none →
      calculateReturn db now oid = (db, .error .notFound)) ∧
    (∀ order, orderFind? db oid = some order →
      (calculateReturn db now oid).2 = .ok (summarizeReturn db now oid order) ∧
      (calculateReturn db now oid).1.invoices = db.invoices.map (fun inv =>
        if inv.orderId = oid
        then { inv with deliveryStatus := .COMPLETED }
        else inv) ∧
      (calculateReturn db now oid).1.orders = db.orders ∧
      (calculateReturn db now oid).1.stocks = db.stocks ∧
      (calculateReturn db now oid).1.transactions = db.transactions ∧
      (calculateReturn db now oid).1.carts = db.carts ∧
      (calculateReturn db now oid).1.paymentLedgers = db.paymentLedgers) := by
  constructor
  · intro hnone
    unfold calculateReturn
    rw [hnone]
  · intro order hsome
    unfold calculateReturn
    rw [hsome]
    refine ⟨rfl, ?_, rfl, rfl, rfl, rfl, rfl⟩
    simp only [markInvoicesCompleted]
    apply List.map_congr_left
    intro inv _
    by_cases h : inv.orderId = oid
    · simp [h]
    · simp [h]

/-- Witness for C7: the own invoice flips to `COMPLETED`, the foreign one
keeps its status, and the summary is the pre-update one. -/
theorem calculateReturn_marks_invoices_completed_witness :
    (calculateReturn c7db 0 100).2 = .ok (summarizeReturn c7db 0 100 c7order) ∧
      (calculateReturn c7db 0 100).1.invoices = c7db.invoices.map (fun inv =>
        if inv.orderId = 100
        then { inv with deliveryStatus := .COMPLETED }
        else inv) := by
  have h := (calculateReturn_marks_invoices_completed c7db 0 100).2 c7order rfl
  exact ⟨h.1, h.2.1⟩

/-- Fixture for the invoice-tax claim: a product with a 10% tax rate and one
order line with subtotal 100. -/
def c6product : Product :=
  { id := 1
    vendorId := 10
    name := "drill"
    dailyPrice := 100
    securityDeposit := none
    taxPercentage := 10 }

def c6order : SalesOrder :=
  { id := 100
    customerId := 7
    vendorId := 10
    isService := false
    status := .APPROVED
    paymentPlan := .FULL_UPFRONT
    totalOrderValue := 100
    details := [{ productId := 1
                  quantity := 1
                  unitPrice := 100
                  subtotal := 100
                  totalDepositAmount := some 0
                  start_date := none
                  end_date := none }] }

def c6db : DB :=
  { stocks := [⟨1, 10⟩]
    transactions := []
    carts := []
    products := [c6product]
    orders := [c6order]
    invoices := []
    paymentLedgers := []
    nextOrderId := 101 }

/-- **C6 (code bug).** `createInvoice` does not use the product tax rate:
on an order line with subtotal 100 whose product carries `taxPercentage =
10`, the created invoice has `taxAmount = 18` (the hardcoded rate marked
NEED TO FIX in the source) while the documented formula
`Σ (subtotal * taxPercentage / 100)` yields 10; the grand total is the order
value plus the (wrong) tax amount. -/
theorem createInvoice_tax_hardcoded_18 :
    ∃ inv : Invoice,
      (createInvoice c6db 10 100 "INV-X").2 = .ok inv ∧
      inv.taxAmount = 18 ∧
      invoiceTaxAmountSpec c6db c6order.details = 10 ∧
      inv.taxAmount ≠ invoiceTaxAmountSpec c6db c6order.details ∧
      inv.grandTotal = c6order.totalOrderValue + 18 := by
  refine ⟨_, rfl, ?_, ?_, ?_, ?_⟩
  · show invoiceTaxAmount c6order.details = 18
    norm_num [invoiceTaxAmount, c6order]
  · norm_num [invoiceTaxAmountSpec, c6order, c6db, productFind?, c6product]
  · show invoiceTaxAmount c6order.details ≠ _
    norm_num [invoiceTaxAmount, invoiceTaxAmountSpec, c6order, c6db,
      productFind?, c6product]
  · show c6order.totalOrderValue + invoiceTaxAmount c6order.details = _
    norm_num [invoiceTaxAmount, c6order]

/-! ## Stock accounting lemmas -/

lemma find?_map_stock_update (stocks : List Stock) (pid : Nat) (q : Int) :
    (stocks.map (fun s =>
        if s.productId == pid
        then { s with totalPhysicalQuantity := s.totalPhysicalQuantity - q }
        else s)).find? (fun s => s.productId == pid) =
      (stocks.find? (fun s => s.productId == pid)).map (fun s =>
        { s with totalPhysicalQuantity := s.totalPhysicalQuantity - q }) := by
  induction stocks with
  | nil => rfl
  | cons s rest ih =>
    cases hh : s.productId == pid with
    | true =>
      simp only [List.map_cons, if_pos hh, List.find?]
      simp [hh]
    | false =>
      have hneg : ¬ (s.productId == pid) = true := by simp [hh]
      simp only [List.map_cons, if_neg hneg, List.find?, hh]
      simpa [hh] using ih

lemma totalStockOf_decrement (db db' : DB) (pid : Nat) (q : Int)
    (h : decrementStock db pid q = .ok db') :
    totalStockOf db' pid = totalStockOf db pid - q := by
  unfold decrementStock at h
  by_cases hany : db.stocks.any (fun s => s.productId == pid) = true
  · rw [if_pos hany] at h
    cases h
    unfold totalStockOf stockFind?
    dsimp only
    rw [find?_map_stock_update]
    cases hf : db.stocks.find? (fun s => s.productId == pid) with
    | some s => rfl
    | none =>
      exfalso
      obtain ⟨s, hmem, hs⟩ := List.any_eq_true.mp hany
      have := List.find?_eq_none.mp hf s hmem
      exact this hs
  · rw [if_neg hany] at h
    cases h

lemma bookedQuantitySpec_addTransaction (db : DB) (t : StockTransaction)
    (pid : Nat) (s e : Int) :
    bookedQuantitySpec (addTransaction db t) pid s e =
      bookedQuantitySpec db pid s e +
        (if t.productId = pid ∧ t.deletedAt = none ∧ overlapsWindow t s e
         then t.quantity else 0) := by
  unfold bookedQuantitySpec addTransaction
  simp [List.map_append, List.sum_append]

lemma decrementStock_ok (db : DB) (pid : Nat) (q : Int) (st : Stock)
    (hstock : stockFind? db pid = some st) :
    ∃ db1, decrementStock db pid q = .ok db1 ∧
      db1.transactions = db.transactions ∧
      db1.orders = db.orders ∧ db1.carts = db.carts ∧
      totalStockOf db1 pid = totalStockOf db pid - q := by
  have hstock' : db.stocks.find? (fun s => s.productId == pid) = some st := hstock
  have hp : (st.productId == pid) = true :=
    @List.find?_some Stock (fun s => s.productId == pid) st db.stocks hstock'
  have hany : db.stocks.any (fun s => s.productId == pid) = true :=
    List.any_eq_true.mpr ⟨st, List.mem_of_find?_eq_some hstock', hp⟩
  have hex : ∃ db1, decrementStock db pid q = .ok db1 := by
    unfold decrementStock
    rw [if_pos hany]
    exact ⟨_, rfl⟩
  obtain ⟨db1, hok⟩ := hex
  have hfields : db1.transactions = db.transactions ∧
      db1.orders = db.orders ∧ db1.carts = db.carts := by
    unfold decrementStock at hok
    rw [if_pos hany] at hok
    injection hok with h
    rw [← h]
    exact ⟨rfl, rfl, rfl⟩
  exact ⟨db1, hok, hfields.1, hfields.2.1, hfields.2.2,
    totalStockOf_decrement db db1 pid q hok⟩

/-- Fixture for the double-subtraction claim: total stock 10, a purchase
order of quantity 3 awaiting approval. -/
def c10detail : OrderDetail :=
  { productId := 1
    quantity := 3
    unitPrice := 100
    subtotal := 300
    totalDepositAmount := some 0
    start_date := none
    end_date := none }

def c10order : SalesOrder :=
  { id := 100
    customerId := 7
    vendorId := 10
    isService := false
    status := .DRAFT
    paymentPlan := .FULL_UPFRONT
    totalOrderValue := 300
    details := [c10detail] }

def c10db : DB :=
  { stocks := [⟨1, 10⟩]
    transactions := []
    carts := []
    products := []
    orders := [c10order]
    invoices := []
    paymentLedgers := []
    nextOrderId := 101 }

/-- **C10.** Approving a purchase order appends a `SALE` movement whose
start and end date both equal the approval instant `now`; for any later
availability query over a window `[s, e)` with `s < now < e` the sold
quantity is therefore subtracted twice: once through the decremented
`totalPhysicalQuantity` and once through the movement passing the overlap
test (the booked sum counts every non-deleted movement regardless of move
type). -/
theorem approve_purchase_double_subtraction (db : DB) (now : Int)
    (vendorId oid : Nat) (order : SalesOrder) (d : OrderDetail) (st : Stock)
    (hfind : orderFind? db oid = some order)
    (hown : order.vendorId = vendorId)
    (hpurchase : order.isService = false)
    (hnot : order.status ≠ OrderStatus.APPROVED)
    (hdetails : order.details = [d])
    (hstock : stockFind? db d.productId = some st)
    (henough : ¬ st.totalPhysicalQuantity < d.quantity) :
    (updateOrderStatus db now vendorId oid .APPROVED).1.transactions =
      db.transactions ++ [saleTxnOf now order.id d.productId d.quantity] ∧
    (saleTxnOf now order.id d.productId d.quantity).startDate =
      (saleTxnOf now order.id d.productId d.quantity).endDate ∧
    (∀ s e : Int, s < now → now < e →
      availableStock (updateOrderStatus db now vendorId oid .APPROVED).1
          d.productId s e =
        availableStock db d.productId s e - 2 * d.quantity) := by
  obtain ⟨db1, hdec, ht1, ho1, hc1, hts1⟩ :=
    decrementStock_ok db d.productId d.quantity st hstock
  have happly : approvePurchaseDetails now order.id db order.details =
      (addTransaction db1 (saleTxnOf now order.id d.productId d.quantity),
        .ok ()) := by
    rw [hdetails]
    show (match approvePurchaseDetail now order.id db d with
          | .error e => ((db, .error e) : DB × Except Err Unit)
          | .ok db1 => approvePurchaseDetails now order.id db1 []) =
      (addTransaction db1 (saleTxnOf now order.id d.productId d.quantity),
        .ok ())
    unfold approvePurchaseDetail
    rw [hstock]
    dsimp only
    rw [if_neg henough, hdec]
    rfl
  have hmain : updateOrderStatus db now vendorId oid .APPROVED =
      (setOrderStatus
        (addTransaction db1 (saleTxnOf now order.id d.productId d.quantity))
        oid .APPROVED,
        .ok { order with status := .APPROVED }) := by
    unfold updateOrderStatus
    rw [hfind]
    dsimp only
    rw [if_neg (by simp [hown]), if_pos ⟨rfl, hnot⟩,
      if_neg (by simp [hpurchase]), happly]
  refine ⟨?_, rfl, ?_⟩
  · rw [hmain]
    show (addTransaction db1 _).transactions = _
    unfold addTransaction
    rw [ht1]
  · intro s e hs he
    rw [hmain]
    show availableStock (setOrderStatus (addTransaction db1 _) oid .APPROVED)
        d.productId s e = _
    unfold availableStock
    have hT : totalStockOf (setOrderStatus
        (addTransaction db1 (saleTxnOf now order.id d.productId d.quantity))
        oid .APPROVED) d.productId = totalStockOf db1 d.productId := rfl
    have hB : bookedQuantitySpec (setOrderStatus
        (addTransaction db1 (saleTxnOf now order.id d.productId d.quantity))
        oid .APPROVED) d.productId s e =
        bookedQuantitySpec
          (addTransaction db1 (saleTxnOf now order.id d.productId d.quantity))
          d.productId s e := rfl
    rw [hT, hB, hts1, bookedQuantitySpec_addTransaction]
    have hcond : (saleTxnOf now order.id d.productId d.quantity).productId =
          d.productId ∧
        (saleTxnOf now order.id d.productId d.quantity).deletedAt = none ∧
        overlapsWindow (saleTxnOf now order.id d.productId d.quantity) s e := by
      refine ⟨rfl, rfl, ?_⟩
      unfold overlapsWindow saleTxnOf
      exact ⟨he, hs⟩
    rw [if_pos hcond]
    have hBdb1 : bookedQuantitySpec db1 d.productId s e =
        bookedQuantitySpec db d.productId s e := by
      unfold bookedQuantitySpec
      rw [ht1]
    rw [hBdb1]
    show totalStockOf db d.productId - d.quantity -
        (bookedQuantitySpec db d.productId s e + d.quantity) = _
    ring

/-- Witness for C10: stock 10, purchase of 3 approved at `now = 50`; a query
over `[40, 60)` sees availability reduced by `2 · 3`. -/
theorem approve_purchase_double_subtraction_witness :
    (updateOrderStatus c10db 50 10 100 .APPROVED).1.transactions =
      c10db.transactions ++ [saleTxnOf 50 100 1 3] ∧
    availableStock (updateOrderStatus c10db 50 10 100 .APPROVED).1 1 40 60 =
      availableStock c10db 1 40 60 - 2 * 3 := by
  obtain ⟨h1, _, h2⟩ := approve_purchase_double_subtraction c10db 50 10 100
    c10order c10detail ⟨1, 10⟩ rfl rfl rfl (by decide) rfl rfl (by decide)
  exact ⟨h1, h2 40 60 (by decide) (by decide)⟩

/-! ## Rental approval lemmas -/

lemma applyRentalTxns_fields (oid : Nat) (db : DB) (ds : List OrderDetail) :
    (applyRentalTxns oid db ds).transactions =
        db.transactions ++ ds.map (mkRentalTxn oid) ∧
      (applyRentalTxns oid db ds).stocks = db.stocks ∧
      (applyRentalTxns oid db ds).orders = db.orders ∧
      (applyRentalTxns oid db ds).carts = db.carts := by
  induction ds generalizing db with
  | nil => exact ⟨by simp [applyRentalTxns], rfl, rfl, rfl⟩
  | cons d rest ih =>
    have hstep : applyRentalTxns oid db (d :: rest) =
        applyRentalTxns oid (addTransaction db (mkRentalTxn oid d)) rest := rfl
    rw [hstep]
    obtain ⟨h1, h2, h3, h4⟩ := ih (addTransaction db (mkRentalTxn oid d))
    refine ⟨?_, h2.trans rfl, h3.trans rfl, h4.trans rfl⟩
    rw [h1]
    show (db.transactions ++ [mkRentalTxn oid d]) ++ rest.map (mkRentalTxn oid) = _
    simp [List.append_assoc]

lemma checkRentalDetail_ok_iff (db : DB) (d : OrderDetail)
    (h1 : d.start_date.isSome) (h2 : d.end_date.isSome) :
    checkRentalDetail db d = .ok () ↔
      checkStockAvailability db d.productId (d.start_date.getD 0)
        (d.end_date.getD 0) d.quantity = true := by
  obtain ⟨s, hs⟩ := Option.isSome_iff_exists.mp h1
  obtain ⟨e, he⟩ := Option.isSome_iff_exists.mp h2
  unfold checkRentalDetail
  rw [hs, he]
  simp only [Option.getD_some]
  by_cases hav : checkStockAvailability db d.productId s e d.quantity = true
  · simp [hav]
  · simp [hav]

lemma checkRentalDetail_err (db : DB) (d : OrderDetail)
    (h1 : d.start_date.isSome) (h2 : d.end_date.isSome)
    (hne : checkRentalDetail db d ≠ .ok ()) :
    checkRentalDetail db d = .error (.insufficientApprove d.productId) := by
  obtain ⟨s, hs⟩ := Option.isSome_iff_exists.mp h1
  obtain ⟨e, he⟩ := Option.isSome_iff_exists.mp h2
  unfold checkRentalDetail at hne ⊢
  rw [hs, he] at hne ⊢
  dsimp only at hne ⊢
  by_cases hav : checkStockAvailability db d.productId s e d.quantity = true
  · rw [if_pos hav] at hne
    exact absurd rfl hne
  · rw [if_neg hav]

lemma checkRentalDetails_ok_of (db : DB) (ds : List OrderDetail)
    (h : ∀ d ∈ ds, checkRentalDetail db d = .ok ()) :
    checkRentalDetails db ds = .ok () := by
  induction ds with
  | nil => rfl
  | cons d rest ih =>
    unfold checkRentalDetails
    rw [h d (List.mem_cons_self d rest)]
    exact ih (fun d2 hd2 => h d2 (List.mem_cons_of_mem d hd2))

lemma checkRentalDetails_err_of (db : DB) (ds : List OrderDetail)
    (hdates : ∀ d ∈ ds, d.start_date.isSome ∧ d.end_date.isSome)
    (hbad : ∃ d ∈ ds, checkRentalDetail db d ≠ .ok ()) :
    ∃ p, checkRentalDetails db ds = .error (.insufficientApprove p) := by
  induction ds with
  | nil => obtain ⟨d, hd, _⟩ := hbad; cases hd
  | cons d rest ih =>
    by_cases hd : checkRentalDetail db d = .ok ()
    · unfold checkRentalDetails
      rw [hd]
      apply ih
      · exact fun d2 hd2 => hdates d2 (List.mem_cons_of_mem d hd2)
      · obtain ⟨d2, hd2, hne⟩ := hbad
        rcases List.mem_cons.mp hd2 with h0 | h0
        · exact absurd (h0 ▸ hd) hne
        · exact ⟨d2, h0, hne⟩
    · have hdd := hdates d (List.mem_cons_self d rest)
      have herr := checkRentalDetail_err db d hdd.1 hdd.2 hd
      refine ⟨d.productId, ?_⟩
      unfold checkRentalDetails
      rw [herr]

lemma find?_map_order_update (orders : List SalesOrder) (oid : Nat)
    (st : OrderStatus) :
    (orders.map (fun o => if o.id == oid then { o with status := st } else o)).find?
        (fun o => o.id == oid) =
      (orders.find? (fun o => o.id == oid)).map (fun o => { o with status := st }) := by
  induction orders with
  | nil => rfl
  | cons o rest ih =>
    cases hh : o.id == oid with
    | true =>
      simp only [List.map_cons, if_pos hh, List.find?]
      simp [hh]
    | false =>
      have hneg : ¬ (o.id == oid) = true := by simp [hh]
      simp only [List.map_cons, if_neg hneg, List.find?, hh]
      simpa [hh] using ih

lemma orderFind?_setOrderStatus (db : DB) (oid : Nat) (st : OrderStatus) :
    orderFind? (setOrderStatus db oid st) oid =
      (orderFind? db oid).map (fun o => { o with status := st }) := by
  unfold orderFind? setOrderStatus
  exact find?_map_order_update db.orders oid st

/-- Fixture for the rental-approval claim: a `DRAFT` rental order of
quantity 2 over `[0, 5)` against a stock of 10 with no prior movement. -/
def c3detail : OrderDetail :=
  { productId := 1
    quantity := 2
    unitPrice := 100
    subtotal := 1000
    totalDepositAmount := some 100
    start_date := some 0
    end_date := some 5 }

def c3order : SalesOrder :=
  { id := 100
    customerId := 7
    vendorId := 10
    isService := true
    status := .DRAFT
    paymentPlan := .FULL_UPFRONT
    totalOrderValue := 1000
    details := [c3detail] }

def c3db : DB :=
  { stocks := [⟨1, 10⟩]
    transactions := []
    carts := []
    products := []
    orders := [c3order]
    invoices := []
    paymentLedgers := []
    nextOrderId := 101 }

/-- **C3.** Approving a not-yet-approved rental order re-checks availability
over every detail line's `[start, end)` window.  If every line passes,
exactly one `RENTAL` movement per line (with the line's quantity, window and
the order id) is appended, every product's `totalPhysicalQuantity` is
untouched, and the persisted status is `APPROVED`.  If any line fails, the
call returns `InsufficientStockError` with the state — movements and status —
completely unchanged. -/
theorem approve_rental_checks_and_reserves (db : DB) (now : Int)
    (vendorId oid : Nat) (order : SalesOrder)
    (hfind : orderFind? db oid = some order)
    (hown : order.vendorId = vendorId)
    (hrental : order.isService = true)
    (hnot : order.status ≠ OrderStatus.APPROVED)
    (hdates : ∀ d ∈ order.details, d.start_date.isSome ∧ d.end_date.isSome) :
    ((∀ d ∈ order.details, checkStockAvailability db d.productId
        (d.start_date.getD 0) (d.end_date.getD 0) d.quantity = true) →
      (updateOrderStatus db now vendorId oid .APPROVED).1.transactions =
        db.transactions ++ order.details.map (mkRentalTxn order.id) ∧
      (updateOrderStatus db now vendorId oid .APPROVED).1.stocks = db.stocks ∧
      orderFind? (updateOrderStatus db now vendorId oid .APPROVED).1 oid =
        some { order with status := .APPROVED } ∧
      (updateOrderStatus db now vendorId oid .APPROVED).2 =
        .ok { order with status := .APPROVED }) ∧
    ((∃ d ∈ order.details, checkStockAvailability db d.productId
        (d.start_date.getD 0) (d.end_date.getD 0) d.quantity = false) →
      ∃ p, updateOrderStatus db now vendorId oid .APPROVED =
        (db, .error (.insufficientApprove p))) := by
  constructor
  · intro hall
    have hok : checkRentalDetails db order.details = .ok () :=
      checkRentalDetails_ok_of db order.details (fun d hd =>
        (checkRentalDetail_ok_iff db d (hdates d hd).1 (hdates d hd).2).mpr
          (hall d hd))
    have hmain : updateOrderStatus db now vendorId oid .APPROVED =
        (setOrderStatus (applyRentalTxns order.id db order.details) oid .APPROVED,
          .ok { order with status := .APPROVED }) := by
      unfold updateOrderStatus
      rw [hfind]
      dsimp only
      rw [if_neg (by simp [hown]), if_pos ⟨rfl, hnot⟩,
        if_pos (by simp [hrental]), hok]
    obtain ⟨h1, h2, h3, h4⟩ := applyRentalTxns_fields order.id db order.details
    rw [hmain]
    refine ⟨?_, ?_, ?_, rfl⟩
    · show (applyRentalTxns order.id db order.details).transactions = _
      exact h1
    · show (applyRentalTxns order.id db order.details).stocks = _
      exact h2
    · rw [orderFind?_setOrderStatus]
      have : orderFind? (applyRentalTxns order.id db order.details) oid =
          orderFind? db oid := by
        unfold orderFind?
        rw [h3]
      rw [this, hfind]
      rfl
  · intro hbad
    obtain ⟨d, hd, hfail⟩ := hbad
    have hne : checkRentalDetail db d ≠ .ok () := by
      intro hc
      have := (checkRentalDetail_ok_iff db d (hdates d hd).1 (hdates d hd).2).mp hc
      rw [this] at hfail
      cases hfail
    obtain ⟨p, herr⟩ := checkRentalDetails_err_of db order.details hdates ⟨d, hd, hne⟩
    refine ⟨p, ?_⟩
    unfold updateOrderStatus
    rw [hfind]
    dsimp only
    rw [if_neg (by simp [hown]), if_pos ⟨rfl, hnot⟩,
      if_pos (by simp [hrental]), herr]

/-- Witness for C3: the concrete rental order is approved; one `RENTAL`
movement for quantity 2 over `[0, 5)` is appended and stock is unchanged. -/
theorem approve_rental_checks_and_reserves_witness :
    (updateOrderStatus c3db 0 10 100 .APPROVED).1.transactions =
      c3db.transactions ++ [mkRentalTxn 100 c3detail] ∧
    (updateOrderStatus c3db 0 10 100 .APPROVED).1.stocks = c3db.stocks := by
  obtain ⟨hsucc, _⟩ := approve_rental_checks_and_reserves c3db 0 10 100 c3order
    rfl rfl rfl (by decide) (by decide)
  obtain ⟨h1, h2, _, _⟩ := hsucc (by decide)
  exact ⟨h1, h2⟩

/-! ## Checkout guard lemmas -/

lemma decrementStock_fields (db : DB) (pid : Nat) (q : Int) (db1 : DB)
    (h : decrementStock db pid q = .ok db1) :
    db1.transactions = db.transactions ∧ db1.orders = db.orders ∧
      db1.carts = db.carts := by
  unfold decrementStock at h
  by_cases hany : db.stocks.any (fun s => s.productId == pid) = true
  · rw [if_pos hany] at h
    injection h with h
    rw [← h]
    exact ⟨rfl, rfl, rfl⟩
  · rw [if_neg hany] at h
    cases h

lemma applySaleEffect_fields (now : Int) (oid : Nat) (db : DB)
    (j : JoinedCartItem) (db1 : DB)
    (h : applySaleEffect now oid db j = .ok db1) :
    db1.orders = db.orders ∧ db1.carts = db.carts := by
  unfold applySaleEffect at h
  cases hdec : decrementStock db j.item.productId j.item.quantity with
  | error e => rw [hdec] at h; cases h
  | ok db0 =>
    rw [hdec] at h
    injection h with h
    obtain ⟨_, ho, hc⟩ := decrementStock_fields db _ _ db0 hdec
    rw [← h]
    exact ⟨ho, hc⟩

lemma applySaleEffects_fields (now : Int) (oid : Nat) :
    ∀ (items : List JoinedCartItem) (db : DB),
      (applySaleEffects now oid db items).1.orders = db.orders ∧
      (applySaleEffects now oid db items).1.carts = db.carts
  | [], db => ⟨rfl, rfl⟩
  | j :: rest, db => by
    have hstep : applySaleEffects now oid db (j :: rest) =
        match applySaleEffect now oid db j with
        | .error e => (db, .error e)
        | .ok db1 => applySaleEffects now oid db1 rest := rfl
    rw [hstep]
    cases h : applySaleEffect now oid db j with
    | error e => exact ⟨rfl, rfl⟩
    | ok db1 =>
      obtain ⟨ho, hc⟩ := applySaleEffect_fields now oid db j db1 h
      obtain ⟨iho, ihc⟩ := applySaleEffects_fields now oid rest db1
      exact ⟨iho.trans ho, ihc.trans hc⟩

lemma finishGroup_carts (now : Int) (db1 : DB) (order : SalesOrder)
    (items : List JoinedCartItem) :
    (finishGroup now db1 order items).1.carts = db1.carts := by
  unfold finishGroup
  cases hsvc : order.isService with
  | true => rfl
  | false =>
    rw [if_pos (show (!false) = true from rfl)]
    rcases h : applySaleEffects now order.id db1 items with ⟨db2, r⟩
    have hc := (applySaleEffects_fields now order.id items db1).2
    rw [h] at hc
    cases r with
    | error e => exact hc
    | ok u => cases u; exact hc

lemma processGroup_carts (now : Int) (cid : Nat) (db : DB)
    (g : (Nat × Bool) × List JoinedCartItem) :
    (processGroup now cid db g).1.carts = db.carts := by
  unfold processGroup
  cases hbd : buildGroupData g.1.2 g.2 with
  | error e => rfl
  | ok pair =>
    obtain ⟨ds, total⟩ := pair
    dsimp only
    exact (finishGroup_carts now _ _ g.2)

lemma processGroups_carts (now : Int) (cid : Nat) :
    ∀ (gs : List ((Nat × Bool) × List JoinedCartItem)) (db : DB),
      (processGroups now cid db gs).1.carts = db.carts
  | [], db => rfl
  | g :: rest, db => by
    have hstep : processGroups now cid db (g :: rest) =
        match processGroup now cid db g with
        | (db1, .error e) => (db1, .error e)
        | (db1, .ok o) =>
          match processGroups now cid db1 rest with
          | (db2, .error e) => (db2, .error e)
          | (db2, .ok os) => (db2, .ok (o :: os)) := rfl
    rw [hstep]
    rcases hpg : processGroup now cid db g with ⟨db1, r⟩
    have hc1 : db1.carts = db.carts := by
      have h := processGroup_carts now cid db g
      rw [hpg] at h
      exact h
    cases r with
    | error e => exact hc1
    | ok o =>
      show ((match processGroups now cid db1 rest with
            | (db2, .error e) => (db2, .error e)
            | (db2, .ok os) => (db2, .ok (o :: os))) :
          DB × Except Err (List SalesOrder)).1.carts = db.carts
      rcases hpgs : processGroups now cid db1 rest with ⟨db2, r2⟩
      have hc2 : db2.carts = db1.carts := by
        have h := processGroups_carts now cid rest db1
        rw [hpgs] at h
        exact h
      cases r2 with
      | error e => exact hc2.trans hc1
      | ok os => exact hc2.trans hc1

lemma validateCartItem_cases (db : DB) (j : JoinedCartItem)
    (hd : j.item.isService = true →
      j.item.startDate.isSome ∧ j.item.endDate.isSome) :
    validateCartItem db j = .ok () ∨
      validateCartItem db j = .error (.insufficientStock j.product.name) := by
  unfold validateCartItem
  cases hsvc : j.item.isService with
  | true =>
    obtain ⟨h1, h2⟩ := hd hsvc
    obtain ⟨s, hs⟩ := Option.isSome_iff_exists.mp h1
    obtain ⟨e, he⟩ := Option.isSome_iff_exists.mp h2
    rw [if_pos rfl, hs, he]
    dsimp only
    by_cases hav : checkStockAvailability db j.item.productId s e
        j.item.quantity = true
    · left; rw [if_pos hav]
    · right; rw [if_neg hav]
  | false =>
    rw [if_neg (by simp)]
    dsimp only
    by_cases hlt : ((j.stock.map (fun s => s.totalPhysicalQuantity)).getD 0 <
        j.item.quantity)
    · right; rw [if_pos hlt]
    · left; rw [if_neg hlt]

lemma validateCartItems_err_of (db : DB) (items : List JoinedCartItem)
    (hd : ∀ j ∈ items, j.item.isService = true →
      j.item.startDate.isSome ∧ j.item.endDate.isSome)
    (hbad : ∃ j ∈ items, validateCartItem db j ≠ .ok ()) :
    ∃ nm, validateCartItems db items = .error (.insufficientStock nm) := by
  induction items with
  | nil => obtain ⟨j, hj, _⟩ := hbad; cases hj
  | cons j rest ih =>
    by_cases hj : validateCartItem db j = .ok ()
    · unfold validateCartItems
      rw [hj]
      apply ih
      · exact fun j2 hj2 => hd j2 (List.mem_cons_of_mem j hj2)
      · obtain ⟨j2, hj2, hne⟩ := hbad
        rcases List.mem_cons.mp hj2 with h0 | h0
        · exact absurd (h0 ▸ hj) hne
        · exact ⟨j2, h0, hne⟩
    · rcases validateCartItem_cases db j (hd j (List.mem_cons_self j rest)) with
        hok | herr
      · exact absurd hok hj
      · refine ⟨j.product.name, ?_⟩
        unfold validateCartItems
        rw [herr]

lemma validateCartItems_ok_of (db : DB) (items : List JoinedCartItem)
    (h : ∀ j ∈ items, validateCartItem db j = .ok ()) :
    validateCartItems db items = .ok () := by
  induction items with
  | nil => rfl
  | cons j rest ih =>
    unfold validateCartItems
    rw [h j (List.mem_cons_self j rest)]
    exact ih (fun j2 hj2 => h j2 (List.mem_cons_of_mem j hj2))

/-- Fixtures for the checkout-atomicity claim: a cart with two lines; the
first (a rental of product 1) passes its windowed check, the second (a
purchase of 3 units of product 2 with stock 1) fails. -/
def c2p1 : Product := ⟨1, 10, "drill", 100, none, 0⟩

def c2p2 : Product := ⟨2, 10, "saw", 20, none, 0⟩

def c2s1 : Stock := ⟨1, 5⟩

def c2s2 : Stock := ⟨2, 1⟩

def c2cart1 : CartItem := ⟨7, 1, 1, some 0, some 5, true⟩

def c2cart2 : CartItem := ⟨7, 2, 3, none, none, false⟩

def c2db : DB :=
  { stocks := [c2s1, c2s2]
    transactions := []
    carts := [c2cart1, c2cart2]
    products := [c2p1, c2p2]
    orders := []
    invoices := []
    paymentLedgers := []
    nextOrderId := 1 }

def c2j1 : JoinedCartItem := ⟨c2cart1, c2p1, some c2s1⟩

def c2j2 : JoinedCartItem := ⟨c2cart2, c2p2, some c2s2⟩

def c2items : List JoinedCartItem := [c2j1, c2j2]

/-- **C2.** `createOrdersFromCart` fails with `EmptyCartError` on an empty
cart; whenever some cart line's availability check fails (all rental lines
carrying both dates), it fails with `InsufficientStockError` and the state is
returned exactly as it was — no order, no movement, no stock change, every
cart line still present; and the customer's cart is cleared exactly on full
success, never on an error. -/
theorem createOrdersFromCart_guards (db : DB) (now : Int) (cid : Nat)
    (items : List JoinedCartItem)
    (hfetch : fetchCartItems db cid = .ok items) :
    (items = [] → createOrdersFromCart db now cid = (db, .error .emptyCart)) ∧
    ((∀ j ∈ items, j.item.isService = true →
        j.item.startDate.isSome ∧ j.item.endDate.isSome) →
      (∃ j ∈ items, validateCartItem db j ≠ .ok ()) →
      ∃ nm, createOrdersFromCart db now cid =
        (db, .error (.insufficientStock nm))) ∧
    (∀ e, (createOrdersFromCart db now cid).2 = .error e →
      (createOrdersFromCart db now cid).1.carts = db.carts) ∧
    (∀ os, (createOrdersFromCart db now cid).2 = .ok os →
      (createOrdersFromCart db now cid).1.carts =
        db.carts.filter (fun c => !(c.userId == cid))) := by
  have hmain : createOrdersFromCart db now cid =
      (if items.isEmpty then (db, .error .emptyCart)
       else match validateCartItems db items with
        | .error e => (db, .error e)
        | .ok () =>
          match processGroups now cid db (groupCartItems items) with
          | (db1, .error e) => (db1, .error e)
          | (db1, .ok orders) => (clearCart db1 cid, .ok orders)) := by
    unfold createOrdersFromCart
    rw [hfetch]
  refine ⟨?_, ?_, ?_⟩
  · intro h
    subst h
    rw [hmain]
    rfl
  · intro hd hbad
    obtain ⟨nm, hverr⟩ := validateCartItems_err_of db items hd hbad
    have hnonempty : items.isEmpty = false := by
      cases items with
      | nil => obtain ⟨j, hj, _⟩ := hbad; cases hj
      | cons a l => rfl
    refine ⟨nm, ?_⟩
    rw [hmain, if_neg (by simp [hnonempty]), hverr]
  · rw [hmain]
    by_cases hemp : items.isEmpty = true
    · rw [if_pos hemp]
      constructor
      · intro e _; rfl
      · intro os hos; cases hos
    · rw [if_neg hemp]
      cases hv : validateCartItems db items with
      | error e =>
        constructor
        · intro e2 _; rfl
        · intro os hos; cases hos
      | ok u =>
        cases u
        rcases hpg : processGroups now cid db (groupCartItems items) with ⟨db1, r⟩
        have hc1 : db1.carts = db.carts := by
          have h := processGroups_carts now cid (groupCartItems items) db
          rw [hpg] at h
          exact h
        cases r with
        | error e =>
          constructor
          · intro e2 _; exact hc1
          · intro os hos; cases hos
        | ok os =>
          constructor
          · intro e2 he2; cases he2
          · intro os2 _
            show (clearCart db1 cid).carts = _
            unfold clearCart
            dsimp only
            rw [hc1]

/-- Witness for C2: the second line of the concrete two-line cart fails, the
whole checkout returns `InsufficientStockError` with the state unchanged. -/
theorem createOrdersFromCart_guards_witness :
    ∃ nm, createOrdersFromCart c2db 0 7 =
      (c2db, .error (.insufficientStock nm)) := by
  obtain ⟨_, h2, _, _⟩ := createOrdersFromCart_guards c2db 0 7 c2items rfl
  have hne : validateCartItem c2db c2j2 ≠ .ok () := by
    intro hc
    rw [show validateCartItem c2db c2j2 =
      .error (.insufficientStock "saw") from rfl] at hc
    cases hc
  refine h2 ?_ ⟨c2j2, List.mem_cons_of_mem _ (List.mem_cons_self _ _), hne⟩
  intro j hj htrue
  rcases List.mem_cons.mp hj with h | h
  · subst h; exact ⟨rfl, rfl⟩
  · rcases List.mem_cons.mp h with h2 | h2
    · subst h2
      exact absurd htrue (by decide)
    · cases h2

/-! ## Pricing lemmas -/

lemma rentalDaysOf_eq_ceil (s e : Int) :
    ((rentalDaysOf s e : ℕ) : ℤ) =
      max ⌈(|(e : ℚ) - (s : ℚ)|) / (msPerDay : ℚ)⌉ 1 := by
  unfold rentalDaysOf
  rw [Nat.cast_max]
  have h1 : ((ceilDivNat (e - s).natAbs msPerDay : ℕ) : ℤ) =
      ⌈(((e - s).natAbs : ℕ) : ℚ) / (msPerDay : ℚ)⌉ :=
    ceilDivNat_eq_ceil _ msPerDay (by norm_num [msPerDay])
  have h2 : (((e - s).natAbs : ℕ) : ℚ) = |(e : ℚ) - (s : ℚ)| := by
    rw [Int.cast_natAbs]
    push_cast
    rfl
  rw [h1, h2]
  rfl

lemma finishGroup_ok (now : Int) (db1 db' : DB) (order o : SalesOrder)
    (items : List JoinedCartItem)
    (h : finishGroup now db1 order items = (db', .ok o)) : o = order := by
  unfold finishGroup at h
  cases hsvc : order.isService with
  | true =>
    rw [hsvc] at h
    rw [if_neg (show ¬ (!true) = true from by decide)] at h
    injection h with h1 h2
    injection h2 with h2
    exact h2.symm
  | false =>
    rw [hsvc] at h
    rw [if_pos (show (!false) = true from rfl)] at h
    rcases hse : applySaleEffects now order.id db1 items with ⟨db2, r⟩
    rw [hse] at h
    cases r with
    | error e =>
      injection h with h1 h2
      cases h2
    | ok u =>
      cases u
      injection h with h1 h2
      injection h2 with h2
      exact h2.symm

lemma processGroup_ok (now : Int) (cid : Nat) (db db' : DB)
    (g : (Nat × Bool) × List JoinedCartItem) (o : SalesOrder)
    (h : processGroup now cid db g = (db', .ok o)) :
    ∃ ds total, buildGroupData g.1.2 g.2 = .ok (ds, total) ∧
      o = createdOrderOf cid db g ds total := by
  unfold processGroup at h
  cases hbd : buildGroupData g.1.2 g.2 with
  | error e =>
    rw [hbd] at h
    injection h with h1 h2
    cases h2
  | ok pair =>
    obtain ⟨ds, total⟩ := pair
    rw [hbd] at h
    dsimp only at h
    exact ⟨ds, total, rfl, finishGroup_ok now _ db' _ o g.2 h⟩

lemma buildGroupData_total (isService : Bool) :
    ∀ (items : List JoinedCartItem) (ds : List OrderDetail) (total : ℚ),
      buildGroupData isService items = .ok (ds, total) →
      total = (ds.map (fun d => d.subtotal)).sum
  | [], ds, total, h => by
    injection h with h
    injection h with h1 h2
    rw [← h1, ← h2]
    rfl
  | j :: rest, ds, total, h => by
    have hstep : buildGroupData isService (j :: rest) =
        match buildDetail isService j with
        | .error e => .error e
        | .ok d =>
          match buildGroupData isService rest with
          | .error e => .error e
          | .ok (ds, tot) => .ok (d :: ds, d.subtotal + tot) := rfl
    rw [hstep] at h
    cases hb : buildDetail isService j with
    | error e => rw [hb] at h; cases h
    | ok d =>
      rw [hb] at h
      cases hr : buildGroupData isService rest with
      | error e => rw [hr] at h; cases h
      | ok pair =>
        obtain ⟨ds0, t0⟩ := pair
        rw [hr] at h
        dsimp only at h
        injection h with h
        injection h with h1 h2
        have ih := buildGroupData_total isService rest ds0 t0 hr
        rw [← h1, ← h2, ih]
        simp

/-- Fixture for the pricing claim: a rental line of quantity 2 over exactly
two and a half days (so `rentalDays = 3`), on a product priced 100 per day
with a security deposit of 40. -/
def c8item : CartItem := ⟨7, 1, 2, some 0, some (216000000), true⟩

def c8product : Product := ⟨1, 10, "drill", 100, some 40, 0⟩

def c8j : JoinedCartItem := ⟨c8item, c8product, some ⟨1, 10⟩⟩

/-- **C8.** Checkout pricing: a rental line's subtotal is
`unitPrice * quantity * rentalDays` with
`rentalDays = max ⌈|end − start| / 1 day⌉ 1`; a purchase line's subtotal is
`unitPrice * quantity`; each line's deposit total is
`securityDeposit * quantity` (0 without a deposit); and every created
order's `totalOrderValue` is the sum of its detail subtotals — deposits are
not part of it. -/
theorem checkout_pricing (j : JoinedCartItem) :
    (∀ s e : Int, j.item.startDate = some s → j.item.endDate = some e →
      ∃ d, buildDetail true j = .ok d ∧
        d.unitPrice = j.product.dailyPrice ∧
        d.subtotal = j.product.dailyPrice * j.item.quantity *
          ((max ⌈(|(e : ℚ) - (s : ℚ)|) / (msPerDay : ℚ)⌉ 1 : ℤ) : ℚ) ∧
        d.totalDepositAmount =
          some ((j.product.securityDeposit.getD 0) * j.item.quantity)) ∧
    (∃ d, buildDetail false j = .ok d ∧
      d.subtotal = j.product.dailyPrice * j.item.quantity ∧
      d.totalDepositAmount =
        some ((j.product.securityDeposit.getD 0) * j.item.quantity)) ∧
    (∀ (now : Int) (cid : Nat) (db db' : DB)
        (g : (Nat × Bool) × List JoinedCartItem) (o : SalesOrder),
      processGroup now cid db g = (db', .ok o) →
      o.totalOrderValue = (o.details.map (fun d => d.subtotal)).sum) := by
  refine ⟨?_, ?_, ?_⟩
  · intro s e hs he
    have hbd : buildDetail true j = .ok
        { productId := j.product.id
          quantity := j.item.quantity
          unitPrice := j.product.dailyPrice
          subtotal := j.product.dailyPrice * j.item.quantity *
            (rentalDaysOf s e : ℚ)
          totalDepositAmount :=
            some ((j.product.securityDeposit.getD 0) * j.item.quantity)
          start_date := some s
          end_date := some e } := by
      unfold buildDetail
      rw [hs, he]
      rfl
    refine ⟨_, hbd, rfl, ?_, rfl⟩
    show j.product.dailyPrice * j.item.quantity * (rentalDaysOf s e : ℚ) = _
    congr 1
    have := rentalDaysOf_eq_ceil s e
    exact_mod_cast congrArg (fun z : ℤ => (z : ℚ)) this
  · exact ⟨_, rfl, rfl, rfl⟩
  · intro now cid db db' g o h
    obtain ⟨ds, total, hbd, ho⟩ := processGroup_ok now cid db db' g o h
    rw [ho]
    exact buildGroupData_total g.1.2 g.2 ds total hbd

/-- Witness for C8: 2 units at 100 per day over 2.5 days price at
`100 * 2 * 3 = 600` with a deposit total of 80. -/
theorem checkout_pricing_witness :
    ∃ d, buildDetail true c8j = .ok d ∧
      d.subtotal = 100 * 2 *
        ((max ⌈(|((216000000 : Int) : ℚ) - ((0 : Int) : ℚ)| /
          (msPerDay : ℚ))⌉ 1 : ℤ) : ℚ) ∧
      d.totalDepositAmount = some 80 := by
  obtain ⟨hrent, _, _⟩ := checkout_pricing c8j
  obtain ⟨d, hd, _, hsub, hdep⟩ := hrent 0 216000000 rfl rfl
  refine ⟨d, hd, ?_, ?_⟩
  · rw [hsub]
    norm_num [c8j, c8product, c8item]
  · rw [hdep]
    norm_num [c8j, c8product, c8item]

/-! ## Grouping partition lemmas -/

/-- Lookup of a key's group (the `Map.get` view of the grouping). -/
def groupLookup (gs : List ((Nat × Bool) × List JoinedCartItem))
    (k : Nat × Bool) : Option (List JoinedCartItem) :=
  (gs.find? (fun g => g.1 == k)).map (fun g => g.2)

/-- How the lines of a key accumulate: nothing stays nothing, lines join an
existing group at its end. -/
def combineLookup (o : Option (List JoinedCartItem))
    (l : List JoinedCartItem) : Option (List JoinedCartItem) :=
  match o, l with
  | none, [] => none
  | none, l => some l
  | some g, l => some (g ++ l)

lemma insertGroup_fst_preserved (key : Nat × Bool) (j : JoinedCartItem)
    (g : (Nat × Bool) × List JoinedCartItem) :
    (if g.1 == key then (g.1, g.2 ++ [j]) else g).1 = g.1 := by
  by_cases h : (g.1 == key) = true
  · rw [if_pos h]
  · rw [if_neg h]

lemma pairwise_insertGroup (gs : List ((Nat × Bool) × List JoinedCartItem))
    (j : JoinedCartItem)
    (hpw : gs.Pairwise (fun g1 g2 => g1.1 ≠ g2.1)) :
    (insertGroup gs j).Pairwise (fun g1 g2 => g1.1 ≠ g2.1) := by
  unfold insertGroup
  by_cases hany : (gs.any (fun g => g.1 == groupKey j)) = true
  · rw [if_pos hany]
    rw [List.pairwise_map]
    apply hpw.imp_of_mem
    intro a b _ _ hne
    rw [insertGroup_fst_preserved (groupKey j) j a,
      insertGroup_fst_preserved (groupKey j) j b]
    exact hne
  · rw [if_neg hany]
    rw [List.pairwise_append]
    refine ⟨hpw, List.pairwise_singleton _ _, ?_⟩
    intro a ha b hb
    have hb1 : b = (groupKey j, [j]) := by simpa using hb
    subst hb1
    intro hc
    have : ∃ g ∈ gs, (g.1 == groupKey j) = true := ⟨a, ha, by simp [hc]⟩
    rw [← List.any_eq_true] at this
    exact absurd this (by simp [hany])

lemma find?_map_group_update (gs : List ((Nat × Bool) × List JoinedCartItem))
    (key : Nat × Bool) (j : JoinedCartItem) (k : Nat × Bool) :
    (gs.map (fun g => if g.1 == key then (g.1, g.2 ++ [j]) else g)).find?
        (fun g => g.1 == k) =
      (gs.find? (fun g => g.1 == k)).map
        (fun g => if g.1 == key then (g.1, g.2 ++ [j]) else g) := by
  induction gs with
  | nil => rfl
  | cons g rest ih =>
    by_cases hc : (g.1 == key) = true
    · have hceq : g.1 = key := by simpa using hc
      cases hk : (g.1 == k) with
      | true =>
        have hkk : (key == k) = true := by rw [← hceq]; exact hk
        simp only [List.map_cons, if_pos hc, List.find?]
        simp [hk, hc, hceq, hkk]
      | false =>
        simp only [List.map_cons, if_pos hc, List.find?, hk]
        simpa [hk] using ih
    · have hcne : ¬ g.1 = key := by simpa using hc
      cases hk : (g.1 == k) with
      | true =>
        simp only [List.map_cons, if_neg hc, List.find?]
        simp [hk, hc, hcne]
      | false =>
        simp only [List.map_cons, if_neg hc, List.find?, hk]
        simpa [hk] using ih

lemma lookup_insertGroup (gs : List ((Nat × Bool) × List JoinedCartItem))
    (j : JoinedCartItem) (k : Nat × Bool) :
    groupLookup (insertGroup gs j) k =
      if groupKey j == k
      then some ((groupLookup gs k).getD [] ++ [j])
      else groupLookup gs k := by
  unfold insertGroup
  by_cases hany : (gs.any (fun g => g.1 == groupKey j)) = true
  · rw [if_pos hany]
    unfold groupLookup
    rw [find?_map_group_update]
    cases hf : gs.find? (fun g => g.1 == k) with
    | none =>
      cases hjk : (groupKey j == k) with
      | false => simp [hjk]
      | true =>
        exfalso
        have hkey : groupKey j = k := by simpa using hjk
        obtain ⟨g0, hg0, hg0k⟩ := List.any_eq_true.mp hany
        have hnone : ∀ x ∈ gs, ¬ ((fun g :
            (Nat × Bool) × List JoinedCartItem => g.1 == k) x = true) :=
          List.find?_eq_none.mp hf
        apply hnone g0 hg0
        have hg1 : g0.1 = groupKey j := by simpa using hg0k
        simp [hg1, hkey]
    | some g0 =>
      have hg0k : g0.1 = k :=
        by simpa using (@List.find?_some _ (fun g => g.1 == k) g0 gs hf)
      cases hjk : (groupKey j == k) with
      | true =>
        have hkey : groupKey j = k := by simpa using hjk
        have hcond : g0.1 = groupKey j := by rw [hg0k, hkey]
        simp [hcond]
      | false =>
        have hkey : ¬ groupKey j = k := by simpa using hjk
        have hcond : ¬ g0.1 = groupKey j := by
          intro hc
          exact hkey (by rw [← hc, hg0k])
        simp [hcond]
  · rw [if_neg hany]
    have hany' : ∀ g ∈ gs, ¬ ((g.1 == groupKey j) = true) := by
      intro g hg hc
      exact hany (List.any_eq_true.mpr ⟨g, hg, hc⟩)
    unfold groupLookup
    rw [List.find?_append]
    cases hjk : (groupKey j == k) with
    | true =>
      have hkey : groupKey j = k := by simpa using hjk
      have hf : gs.find? (fun g => g.1 == k) = none := by
        rw [List.find?_eq_none]
        intro g hg hc
        apply hany' g hg
        have h1 : g.1 = k := by simpa using hc
        simp [h1, hkey]
      rw [hf]
      have hsingle : ([((groupKey j, [j]) : (Nat × Bool) ×
          List JoinedCartItem)].find? (fun g => g.1 == k)) =
          some (groupKey j, [j]) :=
        List.find?_cons_of_pos _ hjk
      simp [hsingle]
    | false =>
      rw [if_neg (by simp [hjk])]
      have hsingle : ([((groupKey j, [j]) : (Nat × Bool) ×
          List JoinedCartItem)].find? (fun g => g.1 == k)) = none := by
        rw [List.find?_eq_none]
        intro g hg
        have hg1 : g = (groupKey j, [j]) := by simpa using hg
        subst hg1
        simp [hjk]
      rw [hsingle]
      simp

lemma groupFold_props :
    ∀ (items : List JoinedCartItem)
      (acc : List ((Nat × Bool) × List JoinedCartItem)),
      acc.Pairwise (fun g1 g2 => g1.1 ≠ g2.1) →
      (items.foldl insertGroup acc).Pairwise (fun g1 g2 => g1.1 ≠ g2.1) ∧
      ∀ k, groupLookup (items.foldl insertGroup acc) k =
        combineLookup (groupLookup acc k)
          (items.filter (fun j => groupKey j == k))
  | [], acc, hpw => by
    refine ⟨hpw, fun k => ?_⟩
    show groupLookup acc k = combineLookup (groupLookup acc k) []
    cases groupLookup acc k with
    | none => rfl
    | some g => simp [combineLookup]
  | j :: items, acc, hpw => by
    have hpw1 := pairwise_insertGroup acc j hpw
    obtain ⟨ih1, ih2⟩ := groupFold_props items (insertGroup acc j) hpw1
    refine ⟨ih1, fun k => ?_⟩
    show groupLookup ((j :: items).foldl insertGroup acc) k = _
    rw [List.foldl_cons]
    rw [ih2 k, lookup_insertGroup]
    cases hjk : (groupKey j == k) with
    | true =>
      rw [if_pos rfl]
      have hfil : (j :: items).filter (fun j => groupKey j == k) =
          j :: items.filter (fun j => groupKey j == k) := by
        rw [List.filter_cons, if_pos hjk]
      rw [hfil]
      cases hacc : groupLookup acc k with
      | none => simp [combineLookup]
      | some g => simp [combineLookup]
    | false =>
      rw [if_neg (by simp [hjk])]
      have hfil : (j :: items).filter (fun j => groupKey j == k) =
          items.filter (fun j => groupKey j == k) := by
        rw [List.filter_cons, if_neg (by simp [hjk])]
      rw [hfil]

lemma find?_of_mem_pairwise :
    ∀ (gs : List ((Nat × Bool) × List JoinedCartItem)),
      gs.Pairwise (fun g1 g2 => g1.1 ≠ g2.1) →
      ∀ g ∈ gs, gs.find? (fun x => x.1 == g.1) = some g
  | [], _, g, hg => by cases hg
  | g0 :: rest, hpw, g, hg => by
    rcases List.mem_cons.mp hg with h | h
    · subst h
      exact List.find?_cons_of_pos _ (by simp)
    · have hne : g0.1 ≠ g.1 :=
        (List.pairwise_cons.mp hpw).1 g h
      rw [List.find?_cons_of_neg _ (by simpa using hne)]
      exact find?_of_mem_pairwise rest (List.pairwise_cons.mp hpw).2 g h

/-- The partition property of step 2: group keys are pairwise distinct, each
group holds exactly the cart lines with its key (in order), and every cart
line's key has a group. -/
lemma groupCartItems_partition (items : List JoinedCartItem) :
    (groupCartItems items).Pairwise (fun g1 g2 => g1.1 ≠ g2.1) ∧
    (∀ g ∈ groupCartItems items,
      g.2 = items.filter (fun j => groupKey j == g.1)) ∧
    (∀ j ∈ items, ∃ g ∈ groupCartItems items, g.1 = groupKey j) := by
  obtain ⟨hpw, hlook0⟩ := groupFold_props items [] (List.Pairwise.nil)
  have hlook : ∀ k, groupLookup (items.foldl insertGroup []) k =
      combineLookup none (items.filter (fun j => groupKey j == k)) := by
    intro k
    have h := hlook0 k
    rwa [show groupLookup [] k = none from rfl] at h
  refine ⟨hpw, ?_, ?_⟩
  · intro g hg
    have hfind := find?_of_mem_pairwise (groupCartItems items) hpw g hg
    have h1 : groupLookup (items.foldl insertGroup []) g.1 = some g.2 := by
      unfold groupLookup
      unfold groupCartItems at hfind
      rw [hfind]
      rfl
    have h2 := hlook g.1
    rw [h1] at h2
    cases hfil : items.filter (fun j => groupKey j == g.1) with
    | nil =>
      rw [hfil] at h2
      cases h2
    | cons a l =>
      rw [hfil] at h2
      rw [show combineLookup none (a :: l) = some (a :: l) from rfl] at h2
      exact Option.some.inj h2
  · intro j hj
    have hmem : j ∈ items.filter (fun jj => groupKey jj == groupKey j) :=
      List.mem_filter.mpr ⟨hj, by simp⟩
    have h2 := hlook (groupKey j)
    unfold groupLookup at h2
    cases hfd : (items.foldl insertGroup []).find?
        (fun g => g.1 == groupKey j) with
    | none =>
      rw [hfd] at h2
      cases hfil : items.filter (fun jj => groupKey jj == groupKey j) with
      | nil => rw [hfil] at hmem; cases hmem
      | cons a l =>
        rw [hfil] at h2
        rw [show combineLookup none (a :: l) = some (a :: l) from rfl] at h2
        cases h2
    | some g =>
      refine ⟨g, List.mem_of_find?_eq_some hfd, ?_⟩
      have := @List.find?_some _ (fun g => g.1 == groupKey j) g _ hfd
      simpa using this

/-- The order-per-group correspondence of the group loop. -/
lemma processGroups_forall₂ (now : Int) (cid : Nat) :
    ∀ (gs : List ((Nat × Bool) × List JoinedCartItem)) (db db' : DB)
      (os : List SalesOrder),
      processGroups now cid db gs = (db', .ok os) →
      List.Forall₂ (fun (g : (Nat × Bool) × List JoinedCartItem)
          (o : SalesOrder) =>
        o.vendorId = g.1.1 ∧ o.isService = g.1.2 ∧
        o.status = (if g.1.2 then OrderStatus.DRAFT else OrderStatus.APPROVED) ∧
        ∃ total, buildGroupData g.1.2 g.2 = .ok (o.details, total)) gs os
  | [], db, db', os, h => by
    injection h with h1 h2
    injection h2 with h2
    rw [← h2]
    exact List.Forall₂.nil
  | g :: rest, db, db', os, h => by
    have hstep : processGroups now cid db (g :: rest) =
        match processGroup now cid db g with
        | (db1, .error e) => (db1, .error e)
        | (db1, .ok o) =>
          match processGroups now cid db1 rest with
          | (db2, .error e) => (db2, .error e)
          | (db2, .ok os) => (db2, .ok (o :: os)) := rfl
    rw [hstep] at h
    rcases hpg : processGroup now cid db g with ⟨db1, r⟩
    rw [hpg] at h
    cases r with
    | error e =>
      injection h with h1 h2
      cases h2
    | ok o =>
      dsimp only at h
      rcases hpgs : processGroups now cid db1 rest with ⟨db2, r2⟩
      rw [hpgs] at h
      cases r2 with
      | error e =>
        injection h with h1 h2
        cases h2
      | ok os' =>
        dsimp only at h
        injection h with h1 h2
        injection h2 with h2
        rw [← h2]
        obtain ⟨ds, total, hbd, ho⟩ := processGroup_ok now cid db db1 g o hpg
        refine List.Forall₂.cons ⟨?_, ?_, ?_, ?_⟩
          (processGroups_forall₂ now cid rest db1 db2 os' hpgs)
        · rw [ho]; rfl
        · rw [ho]; rfl
        · rw [ho]
          show (if !g.1.2 then OrderStatus.APPROVED else OrderStatus.DRAFT) = _
          cases g.1.2 with
          | true => rfl
          | false => rfl
        · exact ⟨total, by rw [ho]; exact hbd⟩

/-- Fixtures for the grouping claim: vendor 10 has one rental and one
purchase line, vendor 20 has one rental line — three groups. -/
def c9p1 : Product := ⟨1, 10, "drill", 100, none, 0⟩

def c9p2 : Product := ⟨2, 10, "saw", 20, none, 0⟩

def c9p3 : Product := ⟨3, 20, "tent", 30, none, 0⟩

def c9c1 : CartItem := ⟨7, 1, 1, some 0, some 86400000, true⟩

def c9c2 : CartItem := ⟨7, 2, 1, none, none, false⟩

def c9c3 : CartItem := ⟨7, 3, 1, some 0, some 86400000, true⟩

def c9db : DB :=
  { stocks := [⟨1, 10⟩, ⟨2, 10⟩, ⟨3, 10⟩]
    transactions := []
    carts := [c9c1, c9c2, c9c3]
    products := [c9p1, c9p2, c9p3]
    orders := []
    invoices := []
    paymentLedgers := []
    nextOrderId := 1 }

def c9items : List JoinedCartItem :=
  [⟨c9c1, c9p1, some ⟨1, 10⟩⟩, ⟨c9c2, c9p2, some ⟨2, 10⟩⟩,
   ⟨c9c3, c9p3, some ⟨3, 10⟩⟩]

/-- Constructor test used by the grouping witness. -/
def isOkResult : Except Err (List SalesOrder) → Bool
  | .ok _ => true
  | .error _ => false

/-- **C9.** A successful checkout partitions the cart lines by
`(vendorId, isService)` — group keys are pairwise distinct, each group holds
exactly the lines with its key, every line belongs to a group — and creates
exactly one order per group, in group order, whose vendor, fulfillment kind
and details come from that group, with initial status `DRAFT` for rental
groups and `APPROVED` for purchase groups. -/
theorem checkout_grouping (db : DB) (now : Int) (cid : Nat)
    (items : List JoinedCartItem) (db' : DB) (orders : List SalesOrder)
    (hfetch : fetchCartItems db cid = .ok items)
    (hrun : createOrdersFromCart db now cid = (db', .ok orders)) :
    (groupCartItems items).Pairwise (fun g1 g2 => g1.1 ≠ g2.1) ∧
    (∀ g ∈ groupCartItems items,
      g.2 = items.filter (fun j => groupKey j == g.1)) ∧
    (∀ j ∈ items, ∃ g ∈ groupCartItems items, g.1 = groupKey j) ∧
    List.Forall₂ (fun (g : (Nat × Bool) × List JoinedCartItem)
        (o : SalesOrder) =>
      o.vendorId = g.1.1 ∧ o.isService = g.1.2 ∧
      o.status = (if g.1.2 then OrderStatus.DRAFT else OrderStatus.APPROVED) ∧
      ∃ total, buildGroupData g.1.2 g.2 = .ok (o.details, total))
      (groupCartItems items) orders := by
  obtain ⟨hpw, hpart, hcover⟩ := groupCartItems_partition items
  refine ⟨hpw, hpart, hcover, ?_⟩
  have hmain : (if items.isEmpty then (db, Except.error Err.emptyCart)
      else match validateCartItems db items with
        | .error e => (db, .error e)
        | .ok () =>
          match processGroups now cid db (groupCartItems items) with
          | (db1, .error e) => (db1, .error e)
          | (db1, .ok os) => (clearCart db1 cid, .ok os)) = (db', .ok orders) := by
    rw [← hrun]
    unfold createOrdersFromCart
    rw [hfetch]
  by_cases hemp : items.isEmpty = true
  · rw [if_pos hemp] at hmain
    injection hmain with h1 h2
    cases h2
  · rw [if_neg hemp] at hmain
    cases hv : validateCartItems db items with
    | error e =>
      rw [hv] at hmain
      injection hmain with h1 h2
      cases h2
    | ok u =>
      cases u
      rw [hv] at hmain
      dsimp only at hmain
      rcases hpg : processGroups now cid db (groupCartItems items) with ⟨db1, r⟩
      rw [hpg] at hmain
      cases r with
      | error e =>
        injection hmain with h1 h2
        cases h2
      | ok os =>
        dsimp only at hmain
        injection hmain with h1 h2
        injection h2 with h2
        rw [← h2]
        exact processGroups_forall₂ now cid (groupCartItems items) db db1 os hpg

/-- Witness for C9: the concrete three-line cart checks out into exactly
three orders matching the three `(vendorId, isService)` groups. -/
theorem checkout_grouping_witness :
    ∃ (db' : DB) (orders : List SalesOrder),
      createOrdersFromCart c9db 0 7 = (db', .ok orders) ∧
      orders.length = 3 ∧
      List.Forall₂ (fun (g : (Nat × Bool) × List JoinedCartItem)
          (o : SalesOrder) =>
        o.vendorId = g.1.1 ∧ o.isService = g.1.2 ∧
        o.status = (if g.1.2 then OrderStatus.DRAFT else OrderStatus.APPROVED) ∧
        ∃ total, buildGroupData g.1.2 g.2 = .ok (o.details, total))
        (groupCartItems c9items) orders := by
  have hok : isOkResult (createOrdersFromCart c9db 0 7).2 = true := rfl
  rcases hrun : createOrdersFromCart c9db 0 7 with ⟨db', r⟩
  rw [hrun] at hok
  cases r with
  | error e => simp [isOkResult] at hok
  | ok orders =>
    have hf2 := (checkout_grouping c9db 0 7 c9items db' orders rfl hrun).2.2.2
    refine ⟨db', orders, rfl, ?_, hf2⟩
    have hlen := List.Forall₂.length_eq hf2
    rw [← hlen]
    rfl

/-- Sanity fixture for the availability calculator: total stock 10, one
active rental movement of quantity 6 over `[1, 5)`. -/
def overlapDb : DB :=
  { stocks := [⟨1, 10⟩]
    transactions := [⟨1, none, .RENTAL, 6, 1, 5, none⟩]
    carts := []
    products := []
    orders := []
    invoices := []
    paymentLedgers := []
    nextOrderId := 0 }

example : checkStockAvailability overlapDb 1 3 10 5 = false := by decide

example : checkStockAvailability overlapDb 1 5 10 9 = true := by decide

end RentalSys
